import Mathlib

/-!
# The traffic polling hook `useTraffic`

A shallow embedding of `src/Frontend/hooks/use-traffic.js`, of the credential store
`src/Frontend/lib/auth.js` it reads its headers from, of the test of `latest.error`
made by `src/Frontend/components/traffic-dashboard.jsx`, and of the two chart components
`Sparkline` (`lane-visualizer.jsx`) and `PredictionChart` (`official-panel.jsx`).

The hook is asynchronous JavaScript.  It is embedded in two layers:

* `fetchOnce` : what one call of the source function `fetchOnce` does to the history
  reference and to the published state `latest`, as a pure function of the outcome of the
  network request and of the value the closure variable `mounted` has when the body has
  been decoded;
* `step` : the event loop around it (timers, pending requests, effect re-runs, unmount), as
  a total transition function on an explicit state.

The numbers of a decoded body are embedded as integers (`JVal.num`), together with the two
kinds of number that `JSON.stringify` does not write back as they are: the infinities
(decoded from a literal beyond the range of binary64, such as `1e400`) and the negative
zero.  Every number the hook itself produces is an integer.  `Sparkline` computes with
binary64 numbers; its arithmetic is embedded with overflow, the rounding of an in-range
result being taken as a parameter.
-/

namespace UseTraffic

/-! ## JavaScript values -/

/-- JavaScript values as far as the hook looks into them: the values `res.json()` can
produce, plus `undefined` (the result of reading a missing property or index) and the
one-unit string holding a lone surrogate (the result of indexing a string inside a
character beyond the basic plane).  `infinity true` is `-Infinity`, `negZero` is `-0`. -/
inductive JVal where
  | undefined
  | null
  | bool (b : Bool)
  | num (n : Int)
  | infinity (negative : Bool)
  | negZero
  | str (s : String)
  | surrogate (unit : Nat)
  | arr (xs : List JVal)
  | obj (kvs : List (String × JVal))
  deriving Inhabited

/-- JavaScript truthiness (`v ? a : b`, `v && a`, `v || a`). -/
def JVal.truthy : JVal → Bool
  | .undefined => false
  | .null => false
  | .bool b => b
  | .num n => n != 0
  | .infinity _ => true
  | .negZero => false
  | .str s => s != ""
  | .surrogate _ => true
  | .arr _ => true
  | .obj _ => true

/-- The comparison `v === n` against a number literal (`-0 === 0` is true). -/
def JVal.strictEqNum : JVal → Int → Bool
  | .num m, n => m == n
  | .negZero, n => n == 0
  | _, _ => false

/-- The comparison `v === s` against a string literal. -/
def JVal.strictEqStr : JVal → String → Bool
  | .str t, s => t == s
  | _, _ => false

/-- What a `catch (err)` block can observe of a thrown value: its truthiness, the
properties `err.code` and `err.message`, and `String(err)`. -/
structure Thrown where
  truthy : Bool
  code : JVal
  message : JVal
  text : String
  deriving Inhabited

/-- The object thrown at line 23: `throw { code: 401, message: "unauthenticated" }`. -/
def thrown401 : Thrown :=
  { truthy := true, code := .num 401, message := .str "unauthenticated",
    text := "[object Object]" }

/-- The `TypeError` raised by reading a property of `null` or `undefined`
(the message is the engine's; nothing below depends on its wording). -/
def typeErrorRead (k : String) : Thrown :=
  { truthy := true, code := .undefined,
    message := .str ("Cannot read properties of null, reading " ++ k),
    text := "TypeError: Cannot read properties of null, reading " ++ k }

/-- Property read `v.k` for a property name `k` that no prototype defines (the hook reads
`data.counts`): an own property of an object, `undefined` on any other value, and a
`TypeError` on `null` and `undefined`. -/
def getProp (v : JVal) (k : String) : Except Thrown JVal :=
  match v with
  | .undefined => .error (typeErrorRead k)
  | .null => .error (typeErrorRead k)
  | .obj kvs => .ok ((kvs.lookup k).getD .undefined)
  | _ => .ok .undefined

/-- The UTF-16 code units of a string: one unit for a character of the basic plane, a
surrogate pair for any other. -/
def utf16Units (s : String) : List Nat :=
  s.toList.flatMap (fun c =>
    if c.toNat < 65536 then [c.toNat]
    else [55296 + (c.toNat - 65536) / 1024, 56320 + (c.toNat - 65536) % 1024])

/-- The one-unit string made of the UTF-16 code unit `u`. -/
def unitString (u : Nat) : JVal :=
  if 55296 ≤ u ∧ u < 57344 then .surrogate u else .str (String.singleton (Char.ofNat u))

/-- Index read `v[i]` on a truthy value: an element of an array, the UTF-16 code unit `i`
of a string (as a one-unit string), the property named by the decimal digits of `i` of an
object, `undefined` otherwise. -/
def getIndex (v : JVal) (i : Nat) : JVal :=
  match v with
  | .arr xs => xs.getD i .undefined
  | .str s => match (utf16Units s).get? i with
    | some u => unitString u
    | none => .undefined
  | .surrogate u => if i = 0 then .surrogate u else .undefined
  | .obj kvs => (kvs.lookup (toString i)).getD .undefined
  | _ => .undefined

/-! ## The history reference and the published state -/

/-- The value of `historyRef.current`: one array per lane. -/
abbrev History := List (List JVal)

/-- The initial value `[[], [], [], []]` of `historyRef` (line 8). -/
def emptyHistory : History := [[], [], [], []]

/-- The object held by the React state `latest`; the hook only ever builds objects with
the keys `data`, `history` and `error`, and a key that is absent is `none`. -/
structure Latest where
  data : Option JVal
  history : Option History
  error : Option JVal
  deriving Inhabited

/-- The object `{}`. -/
def Latest.empty : Latest := { data := none, history := none, error := none }

/-- The argument handed to `setLatest` by one call of `fetchOnce`:
nothing (the early `return`), a value, or the updater of line 39. -/
inductive Publish where
  | skip
  | set (l : Latest)
  | mergeError (e : JVal)
  deriving Inhabited

/-- The effect of `setLatest` on the state `latest` (`none` is the initial `null`):
line 39 is `(prev) => ({ ...(prev || {}), error: e })`. -/
def Publish.apply : Publish → Option Latest → Option Latest
  | .skip, prev => prev
  | .set l, _ => some l
  | .mergeError e, prev => some { (prev.getD Latest.empty) with error := some e }

/-! ## `fetchOnce` -/

/-- Lines 29-31 for one lane: `arr.push(v); if (arr.length > 30) arr.shift()`. -/
def pushShift (arr : List JVal) (v : JVal) : List JVal :=
  let arr1 := arr ++ [v]
  if arr1.length > 30 then arr1.tail else arr1

/-- The value pushed for lane `i` (line 30): `data.counts ? data.counts[i] : 0`. -/
def laneValue (data : JVal) (i : Nat) : Except Thrown JVal :=
  match getProp data "counts" with
  | .error e => .error e
  | .ok c => if c.truthy then .ok (getIndex c i) else .ok (.num 0)

/-- The array `historyRef.current[i]` with its content replaced (arrays are mutated in
place in the source). -/
def setLane : History → Nat → List JVal → History
  | [], _, _ => []
  | _ :: rest, 0, l => l :: rest
  | a :: rest, i + 1, l => a :: setLane rest i l

/-- The `for` loop of lines 28-32 over the remaining lane indices: the history is mutated
in place, so what was pushed before a throw stays pushed. -/
def historyLoop (data : JVal) : List Nat → History → History × Option Thrown
  | [], h => (h, none)
  | i :: rest, h =>
    match laneValue data i with
    | .error e => (h, some e)
    | .ok v => historyLoop data rest (setLane h i (pushShift (h.getD i []) v))

mutual
/-- One value through `JSON.parse(JSON.stringify(..))`: `undefined` (as an array entry)
and the infinities are written as `null`, `-0` is written as `0`, arrays and objects are
copied entry by entry, and every other value is read back as it was. -/
def jsonCopyEntry : JVal → JVal
  | .undefined => .null
  | .infinity _ => .null
  | .negZero => .num 0
  | .arr xs => .arr (jsonCopyList xs)
  | .obj kvs => .obj (jsonCopyFields kvs)
  | .null => .null
  | .bool b => .bool b
  | .num n => .num n
  | .str s => .str s
  | .surrogate u => .surrogate u
/-- The entries of an array through the copy. -/
def jsonCopyList : List JVal → List JVal
  | [] => []
  | x :: xs => jsonCopyEntry x :: jsonCopyList xs
/-- The properties of an object through the copy; a property whose value is `undefined`
is not written. -/
def jsonCopyFields : List (String × JVal) → List (String × JVal)
  | [] => []
  | (_, .undefined) :: rest => jsonCopyFields rest
  | (k, v) :: rest => (k, jsonCopyEntry v) :: jsonCopyFields rest
end

/-- The deep copy `JSON.parse(JSON.stringify(historyRef.current))` of line 33. -/
def jsonCopy (h : History) : History := h.map (fun lane => lane.map jsonCopyEntry)

/-- The `catch` block, lines 34-41. -/
def catchBlock (err : Thrown) : Publish :=
  if err.truthy && err.code.strictEqNum 401 then
    .set { data := none, history := none, error := some (.str "unauthenticated") }
  else
    .mergeError (if err.truthy && err.message.truthy then err.message else .str err.text)

/-- How the request of one `fetchOnce` call ends: `fetch` rejects, or it resolves to a
response with a status whose body `res.json()` decodes or fails to decode. -/
inductive Outcome where
  | rejected (err : Thrown)
  | response (status : Nat) (body : Except Thrown JVal)

/-- One call of `fetchOnce` (lines 18-42): the new content of `historyRef.current` and the
call of `setLatest` it makes.  `mounted` is the value of the closure variable when line 26
runs. -/
def fetchOnce (mounted : Bool) (hist : History) : Outcome → History × Publish
  | .rejected err => (hist, catchBlock err)
  | .response status body =>
    if status == 401 then (hist, catchBlock thrown401)
    else
      match body with
      | .error err => (hist, catchBlock err)
      | .ok data =>
        if !mounted then (hist, .skip)
        else
          match historyLoop data [0, 1, 2, 3] hist with
          | (h, some err) => (h, catchBlock err)
          | (h, none) =>
            (h, .set { data := some data, history := some (jsonCopy h), error := none })

/-- The `try` block of `fetchOnce`, lines 20-33, with its throws made explicit: the new
content of `historyRef.current` and either the call of `setLatest` the block ends with
(`.ok`; `.skip` is the early `return` of line 26) or the value thrown out of the block
(`.error`): by the rejected `fetch`, by line 23, by the rejected `res.json()`, or by the
read of `data.counts` inside the loop. -/
def tryBlock (mounted : Bool) (hist : History) : Outcome → History × Except Thrown Publish
  | .rejected err => (hist, .error err)
  | .response status body =>
    if status == 401 then (hist, .error thrown401)
    else
      match body with
      | .error err => (hist, .error err)
      | .ok data =>
        if !mounted then (hist, .ok .skip)
        else
          match historyLoop data [0, 1, 2, 3] hist with
          | (h, some err) => (h, .error err)
          | (h, none) =>
            (h, .ok (.set { data := some data, history := some (jsonCopy h), error := none }))

/-- The whole body of `fetchOnce`, `try { .. } catch (err) { .. }`, as a statement that
ends normally (`.ok`) or throws (`.error`): a value thrown out of the `try` block is
handed to the `catch` block, whose own statements (a comparison, a read of `err.message`,
`String(err)` and a call of `setLatest`) end normally. -/
def fetchOnceRun (mounted : Bool) (hist : History) (o : Outcome) :
    History × Except Thrown Publish :=
  match tryBlock mounted hist o with
  | (h, .ok p) => (h, .ok p)
  | (h, .error err) => (h, .ok (catchBlock err))

/-- A run of polls on a component that stays mounted: `fetchOnce` applied to each outcome
in order, threading the history reference and the state `latest`. -/
def runPolls : List Outcome → History × Option Latest → History × Option Latest
  | [], s => s
  | o :: rest, (h, l) =>
    let r := fetchOnce true h o
    runPolls rest (r.1, r.2.apply l)

/-! ## The event loop around `fetchOnce` -/

/-- The closure variables of one run of the effect of lines 16-58.  `running` is the value
of the React state captured by that run, `mounted` is `let mounted`, and `id` is `let id`
(`none` is `null`, otherwise the handle returned by the last `setTimeout`). -/
structure Instance where
  running : Bool
  mounted : Bool
  id : Option Nat
  deriving DecidableEq, Inhabited

/-- A timeout that has been set and has neither fired nor been cleared: its handle, the
effect run whose callback it holds, and the delay given to `setTimeout`. -/
structure Timer where
  tid : Nat
  inst : Nat
  delay : Nat
  deriving DecidableEq, Inhabited

/-- A call of `fetchOnce` that has not ended yet: its number, the effect run it belongs
to, and whether it is the call awaited by the timer callback (line 48, followed by
`loop()`) or the call of line 43. -/
structure Request where
  fid : Nat
  inst : Nat
  fromTick : Bool
  deriving DecidableEq, Inhabited

/-- The state of one mounted `useTraffic`: the React states `latest` and `running`, the
refs `historyRef` and `intervalRef`, the option `intervalMs` of the last render, the
effect runs so far (oldest first), the pending timeouts and the calls of `fetchOnce` in
flight.  `alive` is false once the component is unmounted.  `fetchLog` records, for every
request ever issued, the effect run that issued it. -/
structure State where
  alive : Bool
  running : Bool
  latest : Option Latest
  history : History
  interval : Nat
  intervalProp : Nat
  insts : List Instance
  timers : List Timer
  requests : List Request
  nextTimer : Nat
  fetchLog : List Nat
  deriving Inhabited

/-- The closure variables of effect run `i` (an index that names no run reads as a run
that is not mounted). -/
def State.inst (s : State) (i : Nat) : Instance :=
  s.insts.getD i { running := false, mounted := false, id := none }

/-- `clearTimeout(id)`. -/
def clearTimeout (s : State) (id : Option Nat) : State :=
  match id with
  | none => s
  | some t => { s with timers := s.timers.filter (fun tm => tm.tid != t) }

/-- The cleanup function of lines 54-57: `mounted = false; clearTimeout(id)`. -/
def cleanup (s : State) (i : Nat) : State :=
  clearTimeout { s with insts := s.insts.set i { s.inst i with mounted := false } }
    (s.inst i).id

/-- The function `loop` of effect run `i`, lines 45-52:
`id = setTimeout(callback, intervalRef.current)`. -/
def loop (s : State) (i : Nat) : State :=
  { s with
    timers := s.timers ++ [{ tid := s.nextTimer, inst := i, delay := s.interval }]
    insts := s.insts.set i { s.inst i with id := some s.nextTimer }
    nextTimer := s.nextTimer + 1 }

/-- A call of `fetchOnce` by effect run `i` up to its first `await`: the request is
issued. -/
def callFetchOnce (s : State) (i : Nat) (fromTick : Bool) : State :=
  { s with
    requests := s.requests ++ [{ fid := s.fetchLog.length, inst := i, fromTick := fromTick }]
    fetchLog := s.fetchLog ++ [i] }

/-- One run of the effect body, lines 17-53, with the current value of `running`:
`let mounted = true`, `fetchOnce()` (not awaited), `let id = null`, `loop()`. -/
def runEffect (s : State) : State :=
  let i := s.insts.length
  let s1 := { s with insts := s.insts ++ [{ running := s.running, mounted := true, id := none }] }
  loop (callFetchOnce s1 i false) i

/-- The state after the first render and its effects. -/
def mount (intervalMs : Nat) : State :=
  runEffect
    { alive := true, running := true, latest := none, history := emptyHistory,
      interval := intervalMs, intervalProp := intervalMs, insts := [], timers := [],
      requests := [], nextTimer := 0, fetchLog := [] }

/-- What can happen to a mounted hook. -/
inductive Event where
  | setRunning (b : Bool)
  | setIntervalMs (ms : Nat)
  | renderInterval (ms : Nat)
  | fire (tid : Nat)
  | settle (fid : Nat) (o : Outcome)
  | unmount

/-- One event.  An event that cannot happen in the state (a timeout that is not pending,
a request that is not in flight) leaves it as it is.

* `setRunning b` : the consumer calls the returned `setRunning`; when the value changes,
  React re-renders and, the dependency `[running]` having changed, runs the cleanup of the
  current effect run and then the effect body again.
* `setIntervalMs ms` : lines 64-66.
* `renderInterval ms` : a render with a new `intervalMs` option; the effect of lines 12-14.
* `fire tid` : the callback of lines 46-51 starts; when the captured `running` is false it
  calls `loop()` at once, otherwise it calls `fetchOnce` and waits for it.
* `settle fid o` : the request ends with outcome `o` and the rest of `fetchOnce` runs;
  the timer callback that awaited it then calls `loop()`.  React drops a `setLatest` made
  after the unmount.
* `unmount` : React runs the cleanup of the current effect run. -/
def step (s : State) : Event → State
  | .setRunning b =>
    if !s.alive || b == s.running then s
    else runEffect { cleanup s (s.insts.length - 1) with running := b }
  | .setIntervalMs ms => { s with interval := ms }
  | .renderInterval ms =>
    if !s.alive || ms == s.intervalProp then s
    else { s with intervalProp := ms, interval := ms }
  | .fire t =>
    match s.timers.find? (fun tm => tm.tid == t) with
    | none => s
    | some tm =>
      let s1 := { s with timers := s.timers.filter (fun x => x.tid != t) }
      if (s1.inst tm.inst).running then callFetchOnce s1 tm.inst true
      else loop s1 tm.inst
  | .settle f o =>
    match s.requests.find? (fun r => r.fid == f) with
    | none => s
    | some r =>
      let res := fetchOnce (s.inst r.inst).mounted s.history o
      let s1 := { s with
        requests := s.requests.filter (fun x => x.fid != f)
        history := res.1
        latest := if s.alive then res.2.apply s.latest else s.latest }
      if r.fromTick then loop s1 r.inst else s1
  | .unmount =>
    if !s.alive then s
    else { cleanup s (s.insts.length - 1) with alive := false }

/-- A sequence of events, in order. -/
def run (s : State) (evs : List Event) : State := evs.foldl step s

/-- The timer callback of lines 46-51 from its `await` on, when the request `r` it waits
for ends with outcome `o`: line 50, `loop()`, is reached when the awaited `fetchOnce`
ends normally; had it thrown, the callback would end at line 48 and set no timeout. -/
def resumeTick (s : State) (r : Request) (o : Outcome) : State :=
  match fetchOnceRun (s.inst r.inst).mounted s.history o with
  | (h, .ok p) =>
    loop { s with
      requests := s.requests.filter (fun x => x.fid != r.fid)
      history := h
      latest := if s.alive then p.apply s.latest else s.latest } r.inst
  | (h, .error _) =>
    { s with requests := s.requests.filter (fun x => x.fid != r.fid), history := h }


/-! ## Vocabulary of the properties -/

/-- One successful poll as the properties see it: the response status, the decoded body
and the integers of its `counts` array. -/
structure Poll where
  status : Nat
  body : JVal
  counts : List Int

/-- The outcome of the request of a successful poll. -/
def Poll.outcome (p : Poll) : Outcome := .response p.status (.ok p.body)

/-- The poll is not a 401 and its body carries a `counts` array of at least four
integers, the ones listed in `counts`. -/
def Poll.wellFormed (p : Poll) : Prop :=
  p.status ≠ 401 ∧ 4 ≤ p.counts.length ∧
    getProp p.body "counts" = .ok (.arr (p.counts.map JVal.num))

/-- The values `counts[i]` of a list of polls, oldest first. -/
def column (polls : List Poll) (i : Nat) : List JVal :=
  polls.map (fun p => JVal.num (p.counts.getD i 0))

/-- The last thirty entries of a list (all of them when there are fewer). -/
def lastThirty (vs : List JVal) : List JVal := vs.drop (vs.length - 30)

/-- The history reference in which lane `i` holds the last thirty values of column `i`
of the polls seen so far. -/
def windowHistory (polls : List Poll) : History :=
  [lastThirty (column polls 0), lastThirty (column polls 1),
   lastThirty (column polls 2), lastThirty (column polls 3)]

/-- A decoded body `{ counts: [a, b, c, d] }`. -/
def countsBody (a b c d : Int) : JVal :=
  .obj [("counts", .arr [.num a, .num b, .num c, .num d])]

/-- The poll number `k + 1` of the scenario of 35 polls: status 200 and
`counts = [k + 1, 0, 0, 0]`. -/
def scenarioPoll (k : Nat) : Poll :=
  { status := 200, body := countsBody (k + 1) 0 0 0, counts := [k + 1, 0, 0, 0] }

/-- The scenario: 35 consecutive successful polls with `counts[0]` = 1, ..., 35. -/
def scenario35 : List Poll := (List.range 35).map scenarioPoll

/-- A response with status 200 and body `{ counts: [a, b, c, d] }`. -/
def okCounts (a b c d : Int) : Outcome := .response 200 (.ok (countsBody a b c d))

/-- The rejection of `fetch` on a network failure: a `TypeError` with a message and no
`code`. -/
def networkError : Thrown :=
  { truthy := true, code := .undefined, message := .str "Failed to fetch",
    text := "TypeError: Failed to fetch" }

/-- The `SyntaxError` with which `res.json()` rejects a body that is not JSON. -/
def decodeError : Thrown :=
  { truthy := true, code := .undefined, message := .str "Unexpected token < in JSON",
    text := "SyntaxError: Unexpected token < in JSON" }

/-- The object `{ error: "unauthenticated" }` of line 37. -/
def unauthenticatedState : Latest :=
  { data := none, history := none, error := some (.str "unauthenticated") }

/-- The value of the `error` key written by line 39:
`(err && err.message) || String(err)`. -/
def errorValue (err : Thrown) : JVal :=
  if err.truthy && err.message.truthy then err.message else .str err.text

/-- A thrown value that the `catch` block takes for the 401 marker:
`err && err.code === 401`. -/
def Thrown.is401 (err : Thrown) : Bool := err.truthy && err.code.strictEqNum 401

/-- The poll failed: the request was rejected, the status is 401, or the body did not
decode. -/
def Outcome.failed : Outcome → Bool
  | .rejected _ => true
  | .response _ (.error _) => true
  | .response status (.ok _) => status == 401

/-- The values `null` and `undefined`, on which a property read throws. -/
def JVal.isNullish : JVal → Bool
  | .undefined => true
  | .null => true
  | _ => false

/-- The property the specification asks of a published state: when `error` is present,
`data` and `history` are absent. -/
def errorExcludesSnapshot (l : Option Latest) : Prop :=
  ∀ x, l = some x → x.error.isSome = true → x.data = none ∧ x.history = none

/-- The classification the specification asks for a poll with a non-success status:
nothing is appended to the history and an error is published. -/
def classifiedTransient (h : History) (o : Outcome) : Prop :=
  (fetchOnce true h o).1 = h ∧ ∃ l, (fetchOnce true h o).2.apply none = some l ∧ l.error.isSome = true

/-- No effect run is mounted and the component is unmounted. -/
def Stopped (s : State) : Prop :=
  s.alive = false ∧ ∀ j, (s.inst j).mounted = false

/-- At most the newest effect run is mounted, and none is once the component is
unmounted. -/
def OneMounted (s : State) : Prop :=
  (∀ j, j + 1 < s.insts.length → (s.inst j).mounted = false) ∧
    (s.alive = false → ∀ j, (s.inst j).mounted = false)

/-- The hook after one successful poll `{ counts: [1, 2, 3, 4] }` and then
`setRunning(false)`. -/
def pausedAfterOnePoll : State :=
  run (mount 1000) [.settle 0 (okCounts 1 2 3 4), .setRunning false]

/-- The hook unmounted while the request of the first timer tick is in flight. -/
def stoppedMidTick : State := run (mount 1000) [.fire 0, .unmount]

/-- The hook whose first effect run has been cleaned up (by `setRunning(false)`) while
its first request is in flight; the component is still mounted. -/
def stoppedMidFetch : State := run (mount 1000) [.setRunning false]

/-! ## The credential store (`src/Frontend/lib/auth.js`) -/

/-- The content of `localStorage`: the stored keys with their string values. -/
abbrev Storage := List (String × String)

/-- `localStorage.getItem(k)`; `none` is `null`. -/
def Storage.getItem (st : Storage) (k : String) : Option String := st.lookup k

/-- `localStorage.setItem(k, v)`. -/
def Storage.setItem (st : Storage) (k v : String) : Storage :=
  (k, v) :: st.filter (fun p => p.1 != k)

/-- `localStorage.removeItem(k)`. -/
def Storage.removeItem (st : Storage) (k : String) : Storage :=
  st.filter (fun p => p.1 != k)

/-- `saveToken(token, role)`, lines 1-4 (both arguments taken as strings). -/
def saveToken (st : Storage) (token role : String) : Storage :=
  (st.setItem "traffic_token" token).setItem "traffic_role" role

/-- `clearToken()`, lines 6-9. -/
def clearToken (st : Storage) : Storage :=
  (st.removeItem "traffic_token").removeItem "traffic_role"

/-- `getToken()`, lines 11-13. -/
def getToken (st : Storage) : Option String := st.getItem "traffic_token"

/-- `getRole()`, lines 15-17. -/
def getRole (st : Storage) : Option String := st.getItem "traffic_role"

/-- `getAuthHeaders()`, lines 19-22: `token ? { Authorization: "Bearer " + token } : {}`.
The token is `null` or a string, and a string is truthy when it is not empty.  The
result object is the list of its keys and values. -/
def getAuthHeaders (st : Storage) : List (String × String) :=
  match getToken st with
  | some token => if token != "" then [("Authorization", "Bearer " ++ token)] else []
  | none => []

/-- The hook together with the credential store it reads: `sent` holds, for every request
issued so far (in the order of `fetchLog`), the headers object passed to `fetch`. -/
structure Page where
  hook : State
  storage : Storage
  sent : List (List (String × String))

/-- What can happen on the page: an event of the hook, a login (`saveToken`) or a logout
(`clearToken`). -/
inductive PageEvent where
  | hook (e : Event)
  | saveToken (token role : String)
  | clearToken

/-- The page after the hook has been mounted: the request of line 43 was issued with
`getAuthHeaders()` evaluated at that moment (line 20). -/
def Page.mount (storage : Storage) (intervalMs : Nat) : Page :=
  { hook := UseTraffic.mount intervalMs, storage := storage,
    sent := (UseTraffic.mount intervalMs).fetchLog.map (fun _ => getAuthHeaders storage) }

/-- One event of the page.  Every request the hook issues during an event is a call of
`fetchOnce`, whose line 20 evaluates `getAuthHeaders()` at that moment. -/
def Page.step (p : Page) : PageEvent → Page
  | .hook e =>
    { p with
      hook := UseTraffic.step p.hook e
      sent := p.sent ++
        List.replicate ((UseTraffic.step p.hook e).fetchLog.length - p.hook.fetchLog.length)
          (getAuthHeaders p.storage) }
  | .saveToken token role => { p with storage := saveToken p.storage token role }
  | .clearToken => { p with storage := clearToken p.storage }

/-- A sequence of page events, in order. -/
def Page.run (p : Page) (evs : List PageEvent) : Page := evs.foldl Page.step p

/-! ## The consumer of `latest` (`src/Frontend/components/traffic-dashboard.jsx`) -/

/-- The test of line 24 of `TrafficDashboard`, `latest?.error === "unauthenticated"`, on
which the dashboard clears the stored token and reloads. -/
def sessionExpired (latest : Option Latest) : Bool :=
  match latest with
  | none => false
  | some l => (l.error.getD .undefined).strictEqStr "unauthenticated"

/-! ## Vocabulary of the properties, continued -/

/-- The event changes `intervalRef.current`. -/
def Event.changesInterval : Event → Bool
  | .setIntervalMs _ => true
  | .renderInterval _ => true
  | _ => false

/-- The published history is the content of the lane buffers, as the specification states
it for a successful poll. -/
def publishesBuffers (h : History) (o : Outcome) : Prop :=
  ∃ l, (fetchOnce true h o).2 = .set l ∧ l.history = some (fetchOnce true h o).1

/-- The value is `null`, a boolean, an integer or a string. -/
def JVal.isPlain : JVal → Bool
  | .null => true
  | .bool _ => true
  | .num _ => true
  | .str _ => true
  | .surrogate _ => true
  | _ => false

/-- Every entry of the lane buffers is `null`, a boolean, an integer or a string. -/
def PlainEntries (h : History) : Prop :=
  ∀ lane ∈ h, ∀ v ∈ lane, v.isPlain = true

/-- The headers carry the stored token, as the specification states it. -/
def headersCarryToken (st : Storage) (token : String) : Prop :=
  getToken st = some token → getAuthHeaders st = [("Authorization", "Bearer " ++ token)]

/-- The numeric fields of a snapshot are zero-valued: a zero 4-tuple for `counts`,
`densities` and `timers`, the integer 0 for `next_lane` and `signal_timer`. -/
def zeroFilled (data : JVal) : Prop :=
  (∀ k ∈ ["counts", "densities", "timers"],
      getProp data k = .ok (.arr [.num 0, .num 0, .num 0, .num 0])) ∧
  (∀ k ∈ ["next_lane", "signal_timer"], getProp data k = .ok (.num 0))

/-- The poll yields a snapshot, no failure, and the snapshot is zero-filled, as the
specification states it for a success response. -/
def yieldsZeroFilledSnapshot (h : History) (o : Outcome) : Prop :=
  ∃ l d, (fetchOnce true h o).2 = .set l ∧ l.data = some d ∧ l.error = none ∧ zeroFilled d

/-- The published state is the unauthenticated one only for a response with status 401,
as the specification states it. -/
def unauthenticatedOnlyOn401 (o : Outcome) : Prop :=
  sessionExpired ((fetchOnce true emptyHistory o).2.apply none) = true →
    ∃ body, o = .response 401 body

/-- A rejection whose message happens to be the marker string. -/
def markerMessageError : Thrown :=
  { truthy := true, code := .undefined, message := .str "unauthenticated",
    text := "Error: unauthenticated" }

/-- The events of the overlap: the first timeout fires while the request of line 43 is in
flight, the request of the tick is answered first (`counts = [5, 6, 7, 8]`), and the
request of line 43 is answered after it (`counts = [1, 2, 3, 4]`). -/
def overtakenPolls : List Event :=
  [.fire 0, .settle 1 (okCounts 5 6 7 8), .settle 0 (okCounts 1 2 3 4)]

/-- The events of the pause scenario on a backend that answers every request: poll 1 is
answered with `counts = [1, 2, 3, 4]`, the hook is paused, the request issued by the pause
is answered with `counts = [9, 9, 9, 9]`, one tick is skipped, the hook is resumed, and
the request issued by the resume is answered with `counts = [5, 6, 7, 8]`. -/
def pauseResumeScenario : List Event :=
  [.settle 0 (okCounts 1 2 3 4), .setRunning false, .settle 1 (okCounts 9 9 9 9), .fire 1,
   .setRunning true, .settle 2 (okCounts 5 6 7 8)]

/-- The timers pending after an interval change are the ones pending before it or have the
new delay. -/
def WaitsFrom (old : List Timer) (ms : Nat) (s : State) : Prop :=
  s.interval = ms ∧ ∀ tm ∈ s.timers, tm ∈ old ∨ tm.delay = ms

/-! ## The history sparkline (`src/Frontend/components/lane-visualizer.jsx`) -/

/-- A JavaScript number as `Sparkline` computes with it: `NaN`, an infinity (`inf true` is
`-Infinity`) or a finite binary64 value, given by its rational value (the two zeros are
not told apart). -/
inductive JNum where
  | nan
  | inf (negative : Bool)
  | fin (q : ℚ)

/-- The least magnitude that round-to-nearest takes to an infinity in binary64:
`2^1024 - 2^970`, halfway between the largest finite value and `2^1024`. -/
def overflowBound : ℚ := 2 ^ 1024 - 2 ^ 970

/-- The binary64 result of an operation whose exact result is `q`: an infinity when `q`
reaches the overflow bound, the rounded value `rnd q` otherwise.  The rounding `rnd` of an
in-range result (round-to-nearest of the host) is a parameter of the embedding. -/
def finish (rnd : ℚ → ℚ) (q : ℚ) : JNum :=
  if overflowBound ≤ q then .inf false
  else if q ≤ -overflowBound then .inf true
  else .fin (rnd q)

/-- The subtraction `a - b` of binary64. -/
def fsub (rnd : ℚ → ℚ) : JNum → JNum → JNum
  | .nan, _ => .nan
  | _, .nan => .nan
  | .inf s, .inf t => if s = t then .nan else .inf s
  | .inf s, .fin _ => .inf s
  | .fin _, .inf t => .inf (!t)
  | .fin a, .fin b => finish rnd (a - b)

/-- The product `a * b` of binary64. -/
def fmul (rnd : ℚ → ℚ) : JNum → JNum → JNum
  | .nan, _ => .nan
  | _, .nan => .nan
  | .inf s, .inf t => .inf (s != t)
  | .inf s, .fin q => if q = 0 then .nan else .inf (s != decide (q < 0))
  | .fin q, .inf s => if q = 0 then .nan else .inf (s != decide (q < 0))
  | .fin a, .fin b => finish rnd (a * b)

/-- The quotient `a / b` of binary64. -/
def fdiv (rnd : ℚ → ℚ) : JNum → JNum → JNum
  | .nan, _ => .nan
  | _, .nan => .nan
  | .inf _, .inf _ => .nan
  | .inf s, .fin q => .inf (s != decide (q < 0))
  | .fin _, .inf _ => .fin 0
  | .fin a, .fin b =>
    if b = 0 then (if a = 0 then .nan else .inf (decide (a < 0)))
    else finish rnd (a / b)

/-- `Math.max(...data, last)` on finite numbers: the greatest of the entries and `last`. -/
def mathMaxWith (data : List ℚ) (last : ℚ) : ℚ := data.foldr max last

/-- `Math.min(...data, last)` on finite numbers: the least of the entries and `last`. -/
def mathMinWith (data : List ℚ) (last : ℚ) : ℚ := data.foldr min last

/-- `d || 1` for a number `d`: 1 when `d` is 0 or `NaN`, `d` otherwise. -/
def orOne : JNum → JNum
  | .nan => .fin 1
  | .inf s => .inf s
  | .fin q => if q = 0 then .fin 1 else .fin q

/-- The divisor `range` of line 52, `max - min || 1`, with `max` and `min` of lines
50-51. -/
def sparkRange (rnd : ℚ → ℚ) (data : List ℚ) : JNum :=
  orOne (fsub rnd (.fin (mathMaxWith data 1)) (.fin (mathMinWith data 0)))

/-- The point plotted for the entry `value` at position `index`, lines 56-57.  The index
and `data.length - 1` are integers below `2^32`, on which binary64 is exact. -/
def sparkPoint (rnd : ℚ → ℚ) (data : List ℚ) (width height : ℚ) (index : Nat) (value : ℚ) :
    JNum × JNum :=
  (fmul rnd (fdiv rnd (.fin (index : ℚ)) (.fin ((data.length : ℚ) - 1))) (.fin width),
   fsub rnd (.fin height)
     (fmul rnd
       (fdiv rnd (fsub rnd (.fin value) (.fin (mathMinWith data 0))) (sparkRange rnd data))
       (.fin height)))

/-- The component `Sparkline`, lines 45-67, on a list of finite numbers (`none` as `data`
is a falsy `data`): `none` is the placeholder of line 47, otherwise the points of the
polyline, in order. -/
def Sparkline (rnd : ℚ → ℚ) (data : Option (List ℚ)) (width height : ℚ) :
    Option (List (JNum × JNum)) :=
  match data with
  | none => none
  | some d =>
    if d.length < 2 then none
    else some (d.mapIdx (fun index value => sparkPoint rnd d width height index value))

/-- The point is a pair of finite numbers inside the box of `width` by `height`. -/
def inBox (width height : ℚ) (p : JNum × JNum) : Prop :=
  ∃ x y : ℚ, p = (.fin x, .fin y) ∧ 0 ≤ x ∧ x ≤ width ∧ 0 ≤ y ∧ y ≤ height

/-- Every point plotted by `Sparkline` lies inside the box, as the specification states
it. -/
def sparklineInBox (rnd : ℚ → ℚ) (data : List ℚ) (width height : ℚ) : Prop :=
  ∃ pts, Sparkline rnd (some data) width height = some pts ∧ ∀ p ∈ pts, inBox width height p

/-! ## The prediction chart (`src/Frontend/components/official-panel.jsx`) -/

/-- The prediction object as far as `PredictionChart` reads it: each of the fields `x`,
`pdf` and `cdf` is an array of numbers or is missing (`none`). -/
structure Prediction where
  x : Option (List ℚ)
  pdf : Option (List ℚ)
  cdf : Option (List ℚ)

/-- `Math.max(...xs)`; `none` is `-Infinity`, its value when there is no argument. -/
def mathMax : List ℚ → Option ℚ
  | [] => none
  | a :: rest =>
    match mathMax rest with
    | none => some a
    | some m => some (max a m)

/-- The divisors used for the chart points, lines 29 and 42: `data.x.length - 1`,
`maxPdf` and `maxCdf`. -/
structure ChartDivisors where
  xDivisor : ℚ
  maxPdf : Option ℚ
  maxCdf : Option ℚ

/-- What `PredictionChart` renders: the placeholder of line 13, or the two polylines,
whose points are computed with the divisors. -/
inductive ChartRender where
  | placeholder
  | chart (d : ChartDivisors)

/-- The `TypeError` raised by spreading `undefined` (`...data.cdf` at line 17). -/
def typeErrorSpread : Thrown :=
  { truthy := true, code := .undefined, message := .str "data.cdf is not iterable",
    text := "TypeError: data.cdf is not iterable" }

/-- The component `PredictionChart`, lines 11-52, up to the divisors of its points: the
guard of line 12 (an array, even an empty one, is truthy), `maxPdf` and `maxCdf` of
lines 16-17. -/
def PredictionChart (data : Option Prediction) : Except Thrown ChartRender :=
  match data with
  | none => .ok .placeholder
  | some p =>
    match p.x, p.pdf with
    | none, _ => .ok .placeholder
    | some _, none => .ok .placeholder
    | some x, some pdf =>
      match p.cdf with
      | none => .error typeErrorSpread
      | some cdf =>
        .ok (.chart { xDivisor := (x.length : ℚ) - 1, maxPdf := mathMax pdf,
                      maxCdf := mathMax cdf })

/-! ## Vocabulary of the properties, end -/

/-- The history reference holds four lanes of one common length, at most 30. -/
def LanesAligned (h : History) : Prop :=
  ∃ a b c d : List JVal, h = [a, b, c, d] ∧ a.length = b.length ∧ b.length = c.length ∧
    c.length = d.length ∧ a.length ≤ 30

/-! # Lemmas and theorems -/

/-! ## The history window (C1) -/

theorem pushShift_lastThirty (vs : List JVal) (v : JVal) :
    pushShift (lastThirty vs) v = lastThirty (vs ++ [v]) := by
  unfold pushShift lastThirty
  by_cases h : vs.length < 30
  · have h1 : vs.length - 30 = 0 := by omega
    have h2 : (vs ++ [v]).length - 30 = 0 := by simp; omega
    rw [h1, h2]
    simp
    omega
  · have h2 : (vs ++ [v]).length - 30 = (vs.length - 30) + 1 := by simp; omega
    have h3 : (List.drop (vs.length - 30) vs ++ [v]).length > 30 := by simp; omega
    rw [h2]
    simp only [h3, if_true]
    rw [← List.drop_one, List.drop_append_of_le_length (by simp; omega), List.drop_drop,
      List.drop_append_of_le_length (by omega)]

theorem laneValue_wellFormed (p : Poll) (hp : p.wellFormed) (i : Nat) (hi : i < 4) :
    laneValue p.body i = .ok (JVal.num (p.counts.getD i 0)) := by
  obtain ⟨_, hlen, hc⟩ := hp
  unfold laneValue
  rw [hc]
  simp [JVal.truthy, getIndex, List.getD_eq_getElem?_getD]
  have : i < p.counts.length := by omega
  simp [List.getElem?_eq_getElem, this]

theorem historyLoop_wellFormed (p : Poll) (hp : p.wellFormed) (a b c d : List JVal) :
    historyLoop p.body [0, 1, 2, 3] [a, b, c, d] =
      ([pushShift a (.num (p.counts.getD 0 0)), pushShift b (.num (p.counts.getD 1 0)),
        pushShift c (.num (p.counts.getD 2 0)), pushShift d (.num (p.counts.getD 3 0))],
        none) := by
  simp [historyLoop, laneValue_wellFormed p hp, setLane]

theorem column_snoc (pre : List Poll) (p : Poll) (i : Nat) :
    column (pre ++ [p]) i = column pre i ++ [JVal.num (p.counts.getD i 0)] := by
  simp [column]

theorem fetchOnce_windowHistory (pre : List Poll) (p : Poll) (hp : p.wellFormed) :
    (fetchOnce true (windowHistory pre) p.outcome).1 = windowHistory (pre ++ [p]) := by
  have h401 : (p.status == 401) = false := by simpa using hp.1
  simp only [fetchOnce, Poll.outcome, h401, windowHistory, historyLoop_wellFormed p hp,
    pushShift_lastThirty, column_snoc]
  simp

theorem runPolls_windowHistory (polls : List Poll) :
    ∀ (pre : List Poll) (l : Option Latest), (∀ p ∈ polls, p.wellFormed) →
      (runPolls (polls.map Poll.outcome) (windowHistory pre, l)).1
        = windowHistory (pre ++ polls) := by
  induction polls with
  | nil => intro pre l _; simp [runPolls]
  | cons p rest ih =>
    intro pre l h
    have hp : p.wellFormed := h p (by simp)
    simp only [List.map_cons, runPolls]
    rw [fetchOnce_windowHistory pre p hp, ih (pre ++ [p]) _ (fun q hq => h q (by simp [hq]))]
    simp

theorem scenarioPoll_wellFormed (k : Nat) : (scenarioPoll k).wellFormed :=
  ⟨by simp [scenarioPoll], by simp [scenarioPoll], rfl⟩

/-- C1: after `k` successful polls applied in order by `fetchOnce` to four empty lanes, each
poll carrying a `counts` array of at least four integers, lane `i` has length `min k 30`
and holds exactly the last `min k 30` values `counts[i]`, oldest first. -/
theorem fetchOnce_keeps_last_thirty (polls : List Poll) (hok : ∀ p ∈ polls, p.wellFormed)
    (i : Nat) (hi : i < 4) :
    ((runPolls (polls.map Poll.outcome) (emptyHistory, none)).1.getD i []).length
        = min polls.length 30 ∧
    (runPolls (polls.map Poll.outcome) (emptyHistory, none)).1.getD i []
        = (column polls i).drop (polls.length - min polls.length 30) := by
  have h := runPolls_windowHistory polls [] none hok
  have h0 : windowHistory [] = emptyHistory := rfl
  rw [h0] at h
  rw [h]
  have hd : polls.length - min polls.length 30 = polls.length - 30 := by omega
  rw [hd]
  have hl : (column polls i).length = polls.length := by simp [column]
  simp only [List.nil_append, windowHistory]
  interval_cases i <;> simp [lastThirty, hl] <;> omega

/-- C1, the scenario of the specification: 35 successful polls with `counts[0]` = 1..35
leave lane 0 equal to `[6, 7, ..., 35]`, thirty entries. -/
theorem fetchOnce_keeps_last_thirty_witness :
    (∀ p ∈ scenario35, p.wellFormed) ∧ 0 < 4 ∧
    ((runPolls (scenario35.map Poll.outcome) (emptyHistory, none)).1.getD 0 []).length = 30 ∧
    (runPolls (scenario35.map Poll.outcome) (emptyHistory, none)).1.getD 0 []
      = [.num 6, .num 7, .num 8, .num 9, .num 10, .num 11, .num 12, .num 13, .num 14,
         .num 15, .num 16, .num 17, .num 18, .num 19, .num 20, .num 21, .num 22, .num 23,
         .num 24, .num 25, .num 26, .num 27, .num 28, .num 29, .num 30, .num 31, .num 32,
         .num 33, .num 34, .num 35] := by
  have hwf : ∀ p ∈ scenario35, p.wellFormed := by
    intro p hp
    obtain ⟨k, _, rfl⟩ := List.mem_map.mp hp
    exact scenarioPoll_wellFormed k
  have h := fetchOnce_keeps_last_thirty scenario35 hwf 0 (by decide)
  exact ⟨hwf, by decide, h.1, h.2.trans rfl⟩

/-! ## What `fetchOnce` publishes (C2, C3, C4, C5) -/

theorem catchBlock_thrown401 : catchBlock thrown401 = .set unauthenticatedState := rfl

theorem catchBlock_transient (err : Thrown) (h : err.is401 = false) :
    catchBlock err = .mergeError (errorValue err) := by
  unfold Thrown.is401 at h
  simp [catchBlock, errorValue, h]

theorem fetchOnce_401 (m : Bool) (h : History) (body : Except Thrown JVal) :
    fetchOnce m h (.response 401 body) = (h, .set unauthenticatedState) := by
  simp [fetchOnce, catchBlock_thrown401]

theorem laneValue_ok (data : JVal) (hd : data.isNullish = false) (i : Nat) :
    ∃ v, laneValue data i = .ok v := by
  cases data <;> simp [JVal.isNullish] at hd <;> simp [laneValue, getProp] <;>
    split <;> simp

theorem historyLoop_no_throw (data : JVal) (hd : data.isNullish = false) (idxs : List Nat) :
    ∀ h : History, (historyLoop data idxs h).2 = none := by
  induction idxs with
  | nil => intro h; rfl
  | cons i rest ih =>
    intro h
    obtain ⟨v, hv⟩ := laneValue_ok data hd i
    simp [historyLoop, hv, ih]

theorem fetchOnce_success (h : History) (st : Nat) (data : JVal) (hst : st ≠ 401)
    (hd : data.isNullish = false) :
    fetchOnce true h (.response st (.ok data)) =
      ((historyLoop data [0, 1, 2, 3] h).1,
        .set { data := some data, history := some (jsonCopy (historyLoop data [0, 1, 2, 3] h).1),
               error := none }) := by
  have h401 : (st == 401) = false := by simpa using hst
  have hn := historyLoop_no_throw data hd [0, 1, 2, 3] h
  generalize hr : historyLoop data [0, 1, 2, 3] h = r at hn
  obtain ⟨h1, e⟩ := r
  simp only at hn
  subst hn
  simp [fetchOnce, h401, hr]

theorem fetchOnce_failed_history (m : Bool) (h : History) (o : Outcome)
    (hf : o.failed = true) : (fetchOnce m h o).1 = h := by
  cases o with
  | rejected err => rfl
  | response st body =>
    by_cases h401 : st = 401
    · subst h401; rw [fetchOnce_401]
    · have h401b : (st == 401) = false := by simpa using h401
      cases body with
      | error err => simp [fetchOnce, h401b]
      | ok data => simp [Outcome.failed, h401] at hf

theorem fetchOnce_unmounted_history (h : History) (o : Outcome) :
    (fetchOnce false h o).1 = h := by
  cases o with
  | rejected err => rfl
  | response st body =>
    by_cases h401 : st = 401
    · subst h401; rw [fetchOnce_401]
    · have h401b : (st == 401) = false := by simpa using h401
      cases body <;> simp [fetchOnce, h401b]

/-- C2, as the specification states it, fails: after a successful poll followed by a
rejected request the published state carries `error` together with `data` and
`history`. -/
theorem error_beside_snapshot_counterexample :
    ¬ errorExcludesSnapshot
        (runPolls [okCounts 1 2 3 4, .rejected networkError] (emptyHistory, none)).2 := by
  intro hc
  have h := hc { data := some (countsBody 1 2 3 4),
                 history := some [[.num 1], [.num 2], [.num 3], [.num 4]],
                 error := some (.str "Failed to fetch") } rfl rfl
  exact Option.noConfusion h.1

/-- C2, amended: a 401 publishes the bare state `{ error: "unauthenticated" }`; a poll whose
body decodes (status other than 401, body not `null`) publishes `data` and `history` with
no `error`; a transient failure (rejected request or undecodable body, the thrown value
not carrying `code === 401`) publishes the previous state with `error` set, so the
`data` and `history` of the previous state stay visible beside the error. -/
theorem published_state_shapes (m : Bool) (h : History) (prev : Option Latest) (st : Nat)
    (err : Thrown) (data : JVal) (hst : st ≠ 401) (herr : err.is401 = false)
    (hdata : data.isNullish = false) :
    (∀ body, (fetchOnce m h (.response 401 body)).2.apply prev
        = some { data := none, history := none, error := some (.str "unauthenticated") }) ∧
    (fetchOnce true h (.response st (.ok data))).2.apply prev
        = some { data := some data,
                 history := some (jsonCopy (fetchOnce true h (.response st (.ok data))).1),
                 error := none } ∧
    (fetchOnce m h (.rejected err)).2.apply prev
        = some { data := prev.bind (fun l => l.data),
                 history := prev.bind (fun l => l.history),
                 error := some (errorValue err) } ∧
    (fetchOnce m h (.response st (.error err))).2.apply prev
        = some { data := prev.bind (fun l => l.data),
                 history := prev.bind (fun l => l.history),
                 error := some (errorValue err) } := by
  have h401 : (st == 401) = false := by simpa using hst
  refine ⟨fun body => ?_, ?_, ?_, ?_⟩
  · rw [fetchOnce_401]; rfl
  · rw [fetchOnce_success h st data hst hdata]; rfl
  · cases prev <;> simp [fetchOnce, catchBlock_transient err herr, Publish.apply, Latest.empty]
  · cases prev <;>
      simp [fetchOnce, h401, catchBlock_transient err herr, Publish.apply, Latest.empty]

/-- C2, amended, at a concrete input: a network failure after the snapshot
`{ counts: [1, 2, 3, 4] }` keeps that snapshot beside the error. -/
theorem published_state_shapes_witness :
    (200 ≠ 401 ∧ networkError.is401 = false ∧ (countsBody 5 6 7 8).isNullish = false) ∧
    (fetchOnce true [[.num 1], [.num 2], [.num 3], [.num 4]] (.rejected networkError)).2.apply
        (some { data := some (countsBody 1 2 3 4),
                history := some [[.num 1], [.num 2], [.num 3], [.num 4]], error := none })
      = some { data := some (countsBody 1 2 3 4),
               history := some [[.num 1], [.num 2], [.num 3], [.num 4]],
               error := some (.str "Failed to fetch") } :=
  ⟨⟨by decide, rfl, rfl⟩,
   (published_state_shapes true [[.num 1], [.num 2], [.num 3], [.num 4]]
      (some { data := some (countsBody 1 2 3 4),
              history := some [[.num 1], [.num 2], [.num 3], [.num 4]], error := none })
      200 networkError (countsBody 5 6 7 8) (by decide) rfl rfl).2.2.1⟩

/-- C3, the code at the failing input: a response with status 500 and the JSON body
`{ counts: [1, 2, 3, 4] }` is not classified as a failure.  Its counts are appended to
the history and `{ data, history }` is published with no error, exactly as for status 200:
the only test of the status is the comparison with 401 (line 21), so every other status
is handled as the status 200 with the same body. -/
theorem server_error_handled_as_success :
    fetchOnce true emptyHistory (.response 500 (.ok (countsBody 1 2 3 4)))
      = ([[.num 1], [.num 2], [.num 3], [.num 4]],
         .set { data := some (countsBody 1 2 3 4),
                history := some [[.num 1], [.num 2], [.num 3], [.num 4]], error := none }) ∧
    ¬ classifiedTransient emptyHistory (.response 500 (.ok (countsBody 1 2 3 4))) ∧
    ∀ (m : Bool) (h : History) (st : Nat) (body : Except Thrown JVal),
      st = 401 ∨ fetchOnce m h (.response st body) = fetchOnce m h (.response 200 body) := by
  refine ⟨rfl, ?_, ?_⟩
  · intro hc
    have h1 : (fetchOnce true emptyHistory (.response 500 (.ok (countsBody 1 2 3 4)))).1
        = [[.num 1], [.num 2], [.num 3], [.num 4]] := rfl
    have h2 := hc.1
    rw [h1] at h2
    simp [emptyHistory] at h2
  · intro m h st body
    by_cases hst : st = 401
    · exact Or.inl hst
    · right
      have h401 : (st == 401) = false := by simpa using hst
      simp [fetchOnce, h401]

/-- C4: a response with status 401 publishes exactly `{ error: "unauthenticated" }`, with
no `data` and no `history`, whatever the body (decodable or not), the previously
published state, the history and the value of `mounted`; the history is left as it is. -/
theorem unauthorized_publishes_bare_error (m : Bool) (h : History) (prev : Option Latest)
    (body : Except Thrown JVal) :
    (fetchOnce m h (.response 401 body)).2.apply prev
      = some { data := none, history := none, error := some (.str "unauthenticated") } ∧
    (fetchOnce m h (.response 401 body)).1 = h := by
  rw [fetchOnce_401]
  exact ⟨rfl, rfl⟩

/-! ## The event loop: frame lemmas -/

theorem loop_history (s : State) (i : Nat) : (loop s i).history = s.history := rfl

theorem loop_latest (s : State) (i : Nat) : (loop s i).latest = s.latest := rfl

theorem loop_alive (s : State) (i : Nat) : (loop s i).alive = s.alive := rfl

theorem step_settle_history (s : State) (f : Nat) (o : Outcome)
    (ho : ∀ m, (fetchOnce m s.history o).1 = s.history) :
    (step s (.settle f o)).history = s.history := by
  simp only [step]
  split
  · rfl
  · split <;> simp [loop, ho]

/-- C5: a failed poll (status 401, a rejected request, or a body that fails to decode)
leaves the four lane histories as they were, both as the result of `fetchOnce` and in the
state of the hook after the request has ended. -/
theorem failed_poll_keeps_history (m : Bool) (h : History) (o : Outcome)
    (hf : o.failed = true) :
    (fetchOnce m h o).1 = h ∧
    ∀ (s : State) (f : Nat), (step s (.settle f o)).history = s.history :=
  ⟨fetchOnce_failed_history m h o hf,
   fun s f => step_settle_history s f o (fun m2 => fetchOnce_failed_history m2 s.history o hf)⟩

/-- C5 at a concrete input: a 401 that ends the first request of a hook whose history
already holds one poll. -/
theorem failed_poll_keeps_history_witness :
    (Outcome.response 401 (.ok (countsBody 9 9 9 9))).failed = true ∧
    (fetchOnce true [[.num 1], [.num 2], [.num 3], [.num 4]]
        (.response 401 (.ok (countsBody 9 9 9 9)))).1
      = [[.num 1], [.num 2], [.num 3], [.num 4]] ∧
    (step (step (run (mount 1000) [.settle 0 (okCounts 1 2 3 4)]) (.fire 0))
        (.settle 1 (.response 401 (.ok (countsBody 9 9 9 9))))).history
      = [[.num 1], [.num 2], [.num 3], [.num 4]] :=
  ⟨rfl,
   (failed_poll_keeps_history true [[.num 1], [.num 2], [.num 3], [.num 4]]
      (.response 401 (.ok (countsBody 9 9 9 9))) rfl).1,
   ((failed_poll_keeps_history true [[.num 1], [.num 2], [.num 3], [.num 4]]
      (.response 401 (.ok (countsBody 9 9 9 9))) rfl).2
      (step (run (mount 1000) [.settle 0 (okCounts 1 2 3 4)]) (.fire 0)) 1).trans rfl⟩


theorem clearTimeout_insts (s : State) (id : Option Nat) :
    (clearTimeout s id).insts = s.insts := by
  cases id <;> rfl

theorem clearTimeout_alive (s : State) (id : Option Nat) :
    (clearTimeout s id).alive = s.alive := by
  cases id <;> rfl

theorem clearTimeout_history (s : State) (id : Option Nat) :
    (clearTimeout s id).history = s.history := by
  cases id <;> rfl

theorem clearTimeout_latest (s : State) (id : Option Nat) :
    (clearTimeout s id).latest = s.latest := by
  cases id <;> rfl

theorem cleanup_insts (s : State) (i : Nat) :
    (cleanup s i).insts = s.insts.set i { s.inst i with mounted := false } := by
  simp [cleanup, clearTimeout_insts]

theorem cleanup_alive (s : State) (i : Nat) : (cleanup s i).alive = s.alive := by
  simp [cleanup, clearTimeout_alive]

/-- Reading run `j` after run `i` has been rewritten. -/
theorem getD_set_inst (l : List Instance) (i j : Nat) (a d : Instance) :
    (l.set i a).getD j d = if i = j ∧ j < l.length then a else l.getD j d := by
  simp only [List.getD_eq_getElem?_getD, List.getElem?_set]
  by_cases hij : i = j
  · subst hij
    by_cases hl : i < l.length
    · simp [hl]
    · simp [hl]
      have : l.length ≤ i := by omega
      simp [List.getElem?_eq_none this]
  · simp [hij]

theorem loop_inst_mounted (s : State) (i j : Nat) :
    ((loop s i).inst j).mounted = (s.inst j).mounted := by
  simp only [State.inst, loop, getD_set_inst]
  split
  · rename_i h; rw [h.1]
  · rfl

theorem callFetchOnce_inst (s : State) (i j : Nat) (b : Bool) :
    (callFetchOnce s i b).inst j = s.inst j := rfl

theorem cleanup_inst_mounted (s : State) (i j : Nat) :
    ((cleanup s i).inst j).mounted = (if i = j then false else (s.inst j).mounted) := by
  simp only [State.inst, cleanup_insts, getD_set_inst]
  by_cases hij : i = j
  · subst hij
    by_cases hl : i < s.insts.length
    · simp [hl]
    · simp [hl]
      have : s.insts.length ≤ i := by omega
      simp [List.getD_eq_getElem?_getD, List.getElem?_eq_none this]
  · simp [hij]


theorem step_stopped (s : State) (e : Event) (hs : Stopped s) :
    Stopped (step s e) ∧ (step s e).history = s.history ∧ (step s e).latest = s.latest := by
  obtain ⟨ha, hm⟩ := hs
  cases e with
  | setRunning b => simp [step, ha, Stopped, hm]
  | setIntervalMs ms => exact ⟨⟨ha, hm⟩, rfl, rfl⟩
  | renderInterval ms => simp [step, ha, Stopped, hm]
  | fire t =>
    simp only [step]
    split
    · exact ⟨⟨ha, hm⟩, rfl, rfl⟩
    · split
      · exact ⟨⟨ha, hm⟩, rfl, rfl⟩
      · refine ⟨⟨ha, fun j => ?_⟩, rfl, rfl⟩
        rw [loop_inst_mounted]
        exact hm j
  | settle f o =>
    simp only [step]
    split
    · exact ⟨⟨ha, hm⟩, rfl, rfl⟩
    · rename_i r _
      have hr : (s.inst r.inst).mounted = false := hm r.inst
      split
      · refine ⟨⟨ha, fun j => ?_⟩, ?_, ?_⟩
        · rw [loop_inst_mounted]; exact hm j
        · simp [loop, hr, fetchOnce_unmounted_history]
        · simp [loop, ha]
      · refine ⟨⟨ha, hm⟩, ?_, ?_⟩
        · simp [hr, fetchOnce_unmounted_history]
        · simp [ha]
  | unmount => simp [step, ha, Stopped, hm]

theorem run_stopped (evs : List Event) :
    ∀ s : State, Stopped s →
      Stopped (run s evs) ∧ (run s evs).history = s.history ∧ (run s evs).latest = s.latest := by
  induction evs with
  | nil => intro s hs; exact ⟨hs, rfl, rfl⟩
  | cons e rest ih =>
    intro s hs
    obtain ⟨h1, h2, h3⟩ := step_stopped s e hs
    obtain ⟨k1, k2, k3⟩ := ih (step s e) h1
    exact ⟨k1, k2.trans h2, k3.trans h3⟩

theorem runEffect_oneMounted (s : State) (ha : s.alive = true)
    (hm : ∀ j, (s.inst j).mounted = false) : OneMounted (runEffect s) := by
  constructor
  · intro j hj
    simp only [runEffect, loop_inst_mounted, callFetchOnce_inst]
    have hlen : (runEffect s).insts.length = s.insts.length + 1 := by
      simp [runEffect, loop, callFetchOnce]
    rw [hlen] at hj
    have hj2 : j < s.insts.length := by omega
    have := hm j
    simp only [State.inst, List.getD_eq_getElem?_getD] at this ⊢
    rw [List.getElem?_append_left hj2]
    exact this
  · intro h
    simp [runEffect, loop, callFetchOnce, ha] at h

theorem step_oneMounted (s : State) (e : Event) (hs : OneMounted s) :
    OneMounted (step s e) := by
  obtain ⟨h1, h2⟩ := hs
  cases e with
  | setRunning b =>
    simp only [step]
    split
    · exact ⟨h1, h2⟩
    · rename_i hc
      simp only [Bool.or_eq_true, Bool.not_eq_true', not_or, Bool.not_eq_false] at hc
      apply runEffect_oneMounted
      · simp [cleanup_alive, hc.1]
      · intro j
        have hcl := cleanup_inst_mounted s (s.insts.length - 1) j
        have hEq : ∀ b2, ({ cleanup s (s.insts.length - 1) with running := b2 } : State).inst j
            = (cleanup s (s.insts.length - 1)).inst j := fun _ => rfl
        rw [hEq, hcl]
        split
        · rfl
        · rename_i hne
          by_cases hj : j + 1 < s.insts.length
          · exact h1 j hj
          · have : s.insts.length ≤ j := by omega
            simp [State.inst, List.getD_eq_getElem?_getD, List.getElem?_eq_none this]
  | setIntervalMs ms => exact ⟨h1, h2⟩
  | renderInterval ms =>
    simp only [step]
    split
    · exact ⟨h1, h2⟩
    · exact ⟨h1, h2⟩
  | fire t =>
    simp only [step]
    split
    · exact ⟨h1, h2⟩
    · split
      · exact ⟨h1, h2⟩
      · constructor
        · intro j hj
          rw [loop_inst_mounted]
          simp only [loop, List.length_set] at hj
          exact h1 j hj
        · intro ha j
          rw [loop_inst_mounted]
          exact h2 ha j
  | settle f o =>
    simp only [step]
    split
    · exact ⟨h1, h2⟩
    · split
      · constructor
        · intro j hj
          rw [loop_inst_mounted]
          simp only [loop, List.length_set] at hj
          exact h1 j hj
        · intro ha j
          rw [loop_inst_mounted]
          exact h2 ha j
      · exact ⟨h1, h2⟩
  | unmount =>
    simp only [step]
    split
    · exact ⟨h1, h2⟩
    · have hall : ∀ j, (({ cleanup s (s.insts.length - 1) with alive := false } : State).inst j).mounted
          = false := by
        intro j
        have hcl := cleanup_inst_mounted s (s.insts.length - 1) j
        have hEq : ({ cleanup s (s.insts.length - 1) with alive := false } : State).inst j
            = (cleanup s (s.insts.length - 1)).inst j := rfl
        rw [hEq, hcl]
        split
        · rfl
        · rename_i hne
          by_cases hj : j + 1 < s.insts.length
          · exact h1 j hj
          · have : s.insts.length ≤ j := by omega
            simp [State.inst, List.getD_eq_getElem?_getD, List.getElem?_eq_none this]
      exact ⟨fun j _ => hall j, fun _ => hall⟩

theorem run_oneMounted (evs : List Event) :
    ∀ s : State, OneMounted s → OneMounted (run s evs) := by
  induction evs with
  | nil => intro s hs; exact hs
  | cons e rest ih => intro s hs; exact ih (step s e) (step_oneMounted s e hs)

theorem mount_oneMounted (ms : Nat) : OneMounted (mount ms) := by
  constructor
  · intro j hj
    simp [mount, runEffect, loop, callFetchOnce] at hj
  · intro h
    simp [mount, runEffect, loop, callFetchOnce] at h

theorem unmount_stopped (s : State) (hs : OneMounted s) : Stopped (step s .unmount) := by
  obtain ⟨h1, h2⟩ := hs
  simp only [step]
  split
  · rename_i ha
    simp only [Bool.not_eq_true'] at ha
    exact ⟨ha, h2 ha⟩
  · refine ⟨rfl, fun j => ?_⟩
    have hcl := cleanup_inst_mounted s (s.insts.length - 1) j
    have hEq : ({ cleanup s (s.insts.length - 1) with alive := false } : State).inst j
        = (cleanup s (s.insts.length - 1)).inst j := rfl
    rw [hEq, hcl]
    split
    · rfl
    · rename_i hne
      by_cases hj : j + 1 < s.insts.length
      · exact h1 j hj
      · have : s.insts.length ≤ j := by omega
        simp [State.inst, List.getD_eq_getElem?_getD, List.getElem?_eq_none this]

/-- C9: once the hook is unmounted (the cleanup has run), no later event changes the lane
histories, whatever the events before and after and whatever the outcome of the
requests still in flight; and a call of `fetchOnce` whose `mounted` is false returns the
history it was given, also for a successful response with a `counts` array. -/
theorem stopped_engine_keeps_history (ms : Nat) (before after : List Event)
    (h : History) (o : Outcome) :
    (run (step (run (mount ms) before) .unmount) after).history
        = (step (run (mount ms) before) .unmount).history ∧
    (fetchOnce false h o).1 = h :=
  ⟨(run_stopped after _
      (unmount_stopped _ (run_oneMounted before _ (mount_oneMounted ms)))).2.1,
   fetchOnce_unmounted_history h o⟩

/-- C8: once the hook is unmounted (the cleanup has run), no later event changes the
published state `latest`, whatever the events before and after and whatever the outcome
(success, 401, transient failure) of the requests still in flight.  A successful response
is dropped by `fetchOnce` itself, which returns at line 26 without calling `setLatest`
when `mounted` is false; the `setLatest` of the `catch` block is made on an unmounted
component and has no effect. -/
theorem stopped_engine_keeps_latest (ms : Nat) (before after : List Event) :
    (run (step (run (mount ms) before) .unmount) after).latest
        = (step (run (mount ms) before) .unmount).latest ∧
    (step (run (mount ms) before) .unmount).alive = false ∧
    ∀ (h : History) (st : Nat) (data : JVal),
      st = 401 ∨ fetchOnce false h (.response st (.ok data)) = (h, .skip) := by
  have hs := unmount_stopped _ (run_oneMounted before _ (mount_oneMounted ms))
  refine ⟨(run_stopped after _ hs).2.2, hs.1, ?_⟩
  intro h st data
  by_cases hst : st = 401
  · exact Or.inl hst
  · right
    have h401 : (st == 401) = false := by simpa using hst
    simp [fetchOnce, h401]


/-! ## The event loop at concrete inputs (C6, C7, C10) -/

/-- A timer tick of an effect run that captured `running = false` issues no request and
changes neither the history nor the published state. -/
theorem paused_tick_no_fetch (s : State) (t : Nat) (tm : Timer)
    (hfind : s.timers.find? (fun x => x.tid == t) = some tm)
    (hrun : (s.inst tm.inst).running = false) :
    (step s (.fire t)).fetchLog = s.fetchLog ∧ (step s (.fire t)).history = s.history ∧
      (step s (.fire t)).latest = s.latest := by
  have hrun2 : (({ s with timers := s.timers.filter (fun x => x.tid != t) } : State).inst
      tm.inst).running = false := hrun
  simp only [step, hfind, hrun2]
  exact ⟨rfl, rfl, rfl⟩

/-- C6, the code at the failing input: after one successful poll, `setRunning(false)`
re-runs the effect, whose line 43 issues a request at once (the second entry of the
request log, issued by effect run 1, which captured `running = false`); when that request
succeeds with `{ counts: [5, 6, 7, 8] }` the histories and `latest` change while the hook
is paused. -/
theorem pause_issues_fetch_and_publishes :
    (run (mount 1000) [.settle 0 (okCounts 1 2 3 4)]).fetchLog = [0] ∧
    pausedAfterOnePoll.running = false ∧
    pausedAfterOnePoll.fetchLog = [0, 1] ∧
    pausedAfterOnePoll.history = [[.num 1], [.num 2], [.num 3], [.num 4]] ∧
    (step pausedAfterOnePoll (.settle 1 (okCounts 5 6 7 8))).running = false ∧
    (step pausedAfterOnePoll (.settle 1 (okCounts 5 6 7 8))).history
      = [[.num 1, .num 5], [.num 2, .num 6], [.num 3, .num 7], [.num 4, .num 8]] ∧
    (step pausedAfterOnePoll (.settle 1 (okCounts 5 6 7 8))).latest
      = some { data := some (countsBody 5 6 7 8),
               history := some [[.num 1, .num 5], [.num 2, .num 6], [.num 3, .num 7],
                                [.num 4, .num 8]],
               error := none } :=
  ⟨rfl, rfl, rfl, rfl, rfl, rfl, rfl⟩

/-- C7, the code at the failing input: the hook is unmounted while the request of the
first timer tick is in flight (the cleanup sets `mounted = false` and clears a timeout
that has already fired).  Whatever the outcome of that request, the callback goes on to
`loop()`, which sets a new timeout, and when it fires effect run 0 issues a third
request, after the stop. -/
theorem stopped_loop_fetches_again :
    stoppedMidTick.alive = false ∧
    (stoppedMidTick.inst 0).mounted = false ∧
    stoppedMidTick.timers = [] ∧
    stoppedMidTick.fetchLog = [0, 0] ∧
    ∀ o : Outcome,
      (run stoppedMidTick [.settle 1 o]).timers = [{ tid := 1, inst := 0, delay := 1000 }] ∧
      (run stoppedMidTick [.settle 1 o, .fire 1]).fetchLog = [0, 0, 0] :=
  ⟨rfl, rfl, rfl, rfl, fun _ => ⟨rfl, rfl⟩⟩

/-- A remark on pauses: when `setRunning(false)` cleans up the first effect run while its
request is in flight, a successful response is discarded (line 26), but a 401 and a
network failure still reach `setLatest` through the `catch` block, which does not look at
`mounted`; the component being still mounted, `latest` changes. -/
theorem paused_run_publishes_errors :
    (stoppedMidFetch.inst 0).mounted = false ∧
    stoppedMidFetch.alive = true ∧
    stoppedMidFetch.requests
      = [{ fid := 0, inst := 0, fromTick := false }, { fid := 1, inst := 1, fromTick := false }] ∧
    stoppedMidFetch.latest = none ∧
    (step stoppedMidFetch (.settle 0 (okCounts 1 2 3 4))).latest = none ∧
    (step stoppedMidFetch (.settle 0 (.response 401 (.ok .null)))).latest
      = some { data := none, history := none, error := some (.str "unauthenticated") } ∧
    (step stoppedMidFetch (.settle 0 (.rejected networkError))).latest
      = some { data := none, history := none, error := some (.str "Failed to fetch") } :=
  ⟨rfl, rfl, rfl, rfl, rfl, rfl, rfl⟩

/-- C10, the code at the failing input: the first timeout fires while the request of
line 43 is still in flight (that call is not awaited and `loop()` starts the wait at
once); effect run 0 then has two requests in flight. -/
theorem initial_fetch_overlaps_tick :
    (mount 1000).requests = [{ fid := 0, inst := 0, fromTick := false }] ∧
    (mount 1000).timers = [{ tid := 0, inst := 0, delay := 1000 }] ∧
    (step (mount 1000) (.fire 0)).requests
      = [{ fid := 0, inst := 0, fromTick := false }, { fid := 1, inst := 0, fromTick := true }] :=
  ⟨rfl, rfl, rfl⟩

/-! ## Poll order and the pause scenario (C11, C12, C18) -/

/-- C11, the code at the failing input: the first timeout fires while the request of
line 43 is in flight, so effect run 0 has two polls under way; the one started later
(request 1) is answered first and appends and publishes first, the one started earlier
(request 0) appends and publishes after it, and lane 0 ends as `[5, 1]`. -/
theorem later_poll_publishes_first :
    (run (mount 1000) [.fire 0]).fetchLog = [0, 0] ∧
    (run (mount 1000) [.fire 0, .settle 1 (okCounts 5 6 7 8)]).requests
      = [{ fid := 0, inst := 0, fromTick := false }] ∧
    (run (mount 1000) [.fire 0, .settle 1 (okCounts 5 6 7 8)]).history
      = [[.num 5], [.num 6], [.num 7], [.num 8]] ∧
    (run (mount 1000) [.fire 0, .settle 1 (okCounts 5 6 7 8)]).latest
      = some { data := some (countsBody 5 6 7 8),
               history := some [[.num 5], [.num 6], [.num 7], [.num 8]], error := none } ∧
    (run (mount 1000) overtakenPolls).history
      = [[.num 5, .num 1], [.num 6, .num 2], [.num 7, .num 3], [.num 8, .num 4]] ∧
    (run (mount 1000) overtakenPolls).latest
      = some { data := some (countsBody 1 2 3 4),
               history := some [[.num 5, .num 1], [.num 6, .num 2], [.num 7, .num 3],
                                [.num 8, .num 4]],
               error := none } :=
  ⟨rfl, rfl, rfl, rfl, rfl, rfl⟩

/-- C12, the code at the failing input: in the scenario on a backend that answers every
request, the pause and the resume each issue a request of their own (three requests in
all), the skipped tick issues none, and the answer to the request issued by the pause is
appended: lane 0 ends as `[1, 9, 5]`, not `[1, 5]`.  Lane 0 ends as `[1, 5]` only when
the request issued by the pause is not answered before the resume (last line). -/
theorem pause_resume_adds_history_entry :
    (run (mount 1000) [.settle 0 (okCounts 1 2 3 4), .setRunning false]).fetchLog = [0, 1] ∧
    (run (mount 1000)
        [.settle 0 (okCounts 1 2 3 4), .setRunning false, .settle 1 (okCounts 9 9 9 9)]).fetchLog
      = [0, 1] ∧
    (run (mount 1000)
        [.settle 0 (okCounts 1 2 3 4), .setRunning false, .settle 1 (okCounts 9 9 9 9),
         .fire 1]).fetchLog = [0, 1] ∧
    (run (mount 1000) pauseResumeScenario).fetchLog = [0, 1, 2] ∧
    (run (mount 1000) pauseResumeScenario).requests = [] ∧
    (run (mount 1000) pauseResumeScenario).history.getD 0 [] = [.num 1, .num 9, .num 5] ∧
    (run (mount 1000)
        [.settle 0 (okCounts 1 2 3 4), .setRunning false, .fire 1, .setRunning true,
         .settle 2 (okCounts 5 6 7 8), .settle 1 (okCounts 9 9 9 9)]).history.getD 0 []
      = [.num 1, .num 5] :=
  ⟨rfl, rfl, rfl, rfl, rfl, rfl, rfl⟩

/-- C18: mounting the hook issues the first request at once, by effect run 0 and before
any timeout has been set, let alone fired; the first wait, of `intervalMs`, is set
right after, while that request is in flight. -/
theorem mount_fetches_immediately (intervalMs : Nat) :
    (mount intervalMs).fetchLog = [0] ∧
    (mount intervalMs).requests = [{ fid := 0, inst := 0, fromTick := false }] ∧
    (mount intervalMs).timers = [{ tid := 0, inst := 0, delay := intervalMs }] ∧
    (mount intervalMs).nextTimer = 1 ∧
    ∃ s : State, s.timers = [] ∧ s.nextTimer = 0 ∧ s.fetchLog = [0] ∧
      mount intervalMs = loop s 0 :=
  ⟨rfl, rfl, rfl, rfl,
   ⟨callFetchOnce
      { alive := true, running := true, latest := none, history := emptyHistory,
        interval := intervalMs, intervalProp := intervalMs,
        insts := [{ running := true, mounted := true, id := none }], timers := [],
        requests := [], nextTimer := 0, fetchLog := [] } 0 false,
    rfl, rfl, rfl, rfl⟩⟩

/-! ## What a successful poll appends and publishes (C14, C17, C19) -/

theorem jsonCopyEntry_plain (v : JVal) (hv : v.isPlain = true) : jsonCopyEntry v = v := by
  cases v <;> first | rfl | simp [JVal.isPlain] at hv

theorem jsonCopy_plain (h : History) (hn : PlainEntries h) : jsonCopy h = h := by
  unfold jsonCopy
  conv_rhs => rw [← List.map_id h]
  apply List.map_congr_left
  intro lane hl
  conv_rhs => rw [id, ← List.map_id lane]
  apply List.map_congr_left
  intro v hv
  exact jsonCopyEntry_plain v (hn lane hl v hv)

theorem laneValue_no_counts (data : JVal) (hc : getProp data "counts" = .ok .undefined)
    (i : Nat) : laneValue data i = .ok (.num 0) := by
  simp [laneValue, hc, JVal.truthy]

theorem historyLoop_no_counts (data : JVal) (hc : getProp data "counts" = .ok .undefined)
    (a b c d : List JVal) :
    historyLoop data [0, 1, 2, 3] [a, b, c, d] =
      ([pushShift a (.num 0), pushShift b (.num 0), pushShift c (.num 0),
        pushShift d (.num 0)], none) := by
  simp [historyLoop, laneValue_no_counts data hc, setLane]

/-- C14, as the specification states it, fails: for the body `{ counts: [7] }` lanes 1 to 3
of the buffers receive `undefined`, which the JSON copy of line 33 publishes as `null`,
so the published history is not the content of the buffers. -/
theorem short_counts_copy_counterexample :
    ¬ publishesBuffers emptyHistory (.response 200 (.ok (.obj [("counts", .arr [.num 7])]))) := by
  intro ⟨l, h1, h2⟩
  have e1 : (fetchOnce true emptyHistory
      (.response 200 (.ok (.obj [("counts", .arr [.num 7])])))).1
      = [[.num 7], [.undefined], [.undefined], [.undefined]] := rfl
  have e2 : (fetchOnce true emptyHistory
      (.response 200 (.ok (.obj [("counts", .arr [.num 7])])))).2
      = .set { data := some (.obj [("counts", .arr [.num 7])]),
               history := some [[.num 7], [.null], [.null], [.null]], error := none } := rfl
  rw [e1] at h2
  rw [e2] at h1
  injection h1 with h1
  subst h1
  simp at h2

/-- C14, amended: after a successful poll (status other than 401, body not `null`, run
still mounted) the published state is exactly `{ data, history }` with `data` the decoded
body and `history` the JSON copy of the four lane buffers right after the append, and no
`error` whatever the previous state was.  The copy is made entry by entry: `undefined`
and the infinities read `null`, `-0` reads `0`, and `null`, booleans, integers and strings
read as they are; so the copy equals the buffers when every entry is one of these.  A
later transient failure (rejected request or undecodable body, the thrown value not
carrying `code === 401`) keeps the published history as it is, beside the error. -/
theorem successful_poll_publishes_copy (h : History) (prev : Option Latest) (st : Nat)
    (data : JVal) (hst : st ≠ 401) (hdata : data.isNullish = false) :
    (fetchOnce true h (.response st (.ok data))).2.apply prev
      = some { data := some data,
               history := some (jsonCopy (fetchOnce true h (.response st (.ok data))).1),
               error := none } ∧
    jsonCopy (fetchOnce true h (.response st (.ok data))).1
      = (fetchOnce true h (.response st (.ok data))).1.map
          (fun lane => lane.map jsonCopyEntry) ∧
    jsonCopyEntry .undefined = .null ∧
    (∀ b, jsonCopyEntry (.infinity b) = .null) ∧
    jsonCopyEntry .negZero = .num 0 ∧
    (∀ v : JVal, v.isPlain = true → jsonCopyEntry v = v) ∧
    (PlainEntries (fetchOnce true h (.response st (.ok data))).1 →
      jsonCopy (fetchOnce true h (.response st (.ok data))).1
        = (fetchOnce true h (.response st (.ok data))).1) ∧
    ∀ (l : Latest) (m2 : Bool) (h2 : History) (err : Thrown), err.is401 = false →
      ((fetchOnce m2 h2 (.rejected err)).2.apply (some l)).bind (fun x => x.history)
          = l.history ∧
      ((fetchOnce m2 h2 (.response st (.error err))).2.apply (some l)).bind
          (fun x => x.history) = l.history := by
  have h401 : (st == 401) = false := by simpa using hst
  refine ⟨?_, rfl, rfl, fun _ => rfl, rfl, jsonCopyEntry_plain, jsonCopy_plain _, ?_⟩
  · rw [fetchOnce_success h st data hst hdata]; rfl
  · intro l m2 h2 err herr
    constructor
    · simp [fetchOnce, catchBlock_transient err herr, Publish.apply]
    · simp [fetchOnce, h401, catchBlock_transient err herr, Publish.apply]

/-- C14, amended, at a concrete input: after one poll `[1, 2, 3, 4]`, the body
`{ counts: [7, Infinity] }` (the literal `1e400` decodes to `Infinity`) leaves `Infinity`
in lane 1 and `undefined` in lanes 2 and 3 of the buffers, and the published history
holds `null` in their places; the error of the previous state is gone. -/
theorem successful_poll_publishes_copy_witness :
    (200 ≠ 401 ∧
      (JVal.obj [("counts", .arr [.num 7, .infinity false])]).isNullish = false) ∧
    (fetchOnce true [[.num 1], [.num 2], [.num 3], [.num 4]]
        (.response 200 (.ok (.obj [("counts", .arr [.num 7, .infinity false])])))).1
      = [[.num 1, .num 7], [.num 2, .infinity false], [.num 3, .undefined],
         [.num 4, .undefined]] ∧
    (fetchOnce true [[.num 1], [.num 2], [.num 3], [.num 4]]
        (.response 200 (.ok (.obj [("counts", .arr [.num 7, .infinity false])])))).2.apply
        (some { data := none, history := none, error := some (.str "Failed to fetch") })
      = some { data := some (.obj [("counts", .arr [.num 7, .infinity false])]),
               history := some [[.num 1, .num 7], [.num 2, .null], [.num 3, .null],
                                [.num 4, .null]],
               error := none } :=
  ⟨⟨by decide, rfl⟩, rfl,
   (successful_poll_publishes_copy [[.num 1], [.num 2], [.num 3], [.num 4]]
      (some { data := none, history := none, error := some (.str "Failed to fetch") })
      200 (.obj [("counts", .arr [.num 7, .infinity false])]) (by decide) rfl).1.trans rfl⟩

/-- C19: a successful poll (status other than 401, run still mounted) whose decoded body
reads `undefined` for `counts` appends the value 0 to each of the four lanes, each lane
then dropping its oldest entry when it holds more than 30. -/
theorem missing_counts_append_zero (st : Nat) (data : JVal) (a b c d : List JVal)
    (hst : st ≠ 401) (hc : getProp data "counts" = .ok .undefined) :
    (fetchOnce true [a, b, c, d] (.response st (.ok data))).1
      = [pushShift a (.num 0), pushShift b (.num 0), pushShift c (.num 0),
         pushShift d (.num 0)] ∧
    (∀ arr : List JVal, arr.length < 30 → pushShift arr (.num 0) = arr ++ [JVal.num 0]) ∧
    (∀ arr : List JVal, 30 ≤ arr.length → pushShift arr (.num 0) = (arr ++ [JVal.num 0]).tail) := by
  have h401 : (st == 401) = false := by simpa using hst
  refine ⟨?_, ?_, ?_⟩
  · simp [fetchOnce, h401, historyLoop_no_counts data hc]
  · intro arr ha
    have : ¬ (arr.length + 1 > 30) := by omega
    simp [pushShift, this]
  · intro arr ha
    have : arr.length + 1 > 30 := by omega
    simp [pushShift, this]

/-- C19 at a concrete input: the body `{ mode: "auto" }`, which has no `counts`. -/
theorem missing_counts_append_zero_witness :
    (200 ≠ 401 ∧ getProp (.obj [("mode", .str "auto")]) "counts" = .ok .undefined) ∧
    (fetchOnce true [[.num 1], [.num 2], [.num 3], [.num 4]]
        (.response 200 (.ok (.obj [("mode", .str "auto")])))).1
      = [[.num 1, .num 0], [.num 2, .num 0], [.num 3, .num 0], [.num 4, .num 0]] :=
  ⟨⟨by decide, rfl⟩,
   (missing_counts_append_zero 200 (.obj [("mode", .str "auto")])
      [.num 1] [.num 2] [.num 3] [.num 4] (by decide) rfl).1.trans rfl⟩

/-- C17, as the specification states it, fails: for the body `{}` the poll publishes a
snapshot whose `data` is `{}` itself, in which `next_lane` reads `undefined`, not 0. -/
theorem empty_body_not_zero_filled_counterexample :
    ¬ yieldsZeroFilledSnapshot emptyHistory (.response 200 (.ok (.obj []))) := by
  intro ⟨l, d, h1, h2, _, hz⟩
  have e2 : (fetchOnce true emptyHistory (.response 200 (.ok (.obj [])))).2
      = .set { data := some (.obj []),
               history := some [[.num 0], [.num 0], [.num 0], [.num 0]], error := none } := rfl
  rw [e2] at h1
  injection h1 with h1
  subst h1
  injection h2 with h2
  subst h2
  have h3 := hz.2 "next_lane" (by simp)
  simp [getProp] at h3

/-- C17, amended: for a response with a status other than 401 whose body decodes to a
JSON object, the poll publishes a snapshot and no error, and the published `data` is the
decoded object itself: a field the body lacks reads `undefined` in it, not zero. -/
theorem object_body_published_unchanged (h : History) (prev : Option Latest) (st : Nat)
    (kvs : List (String × JVal)) (hst : st ≠ 401) :
    (fetchOnce true h (.response st (.ok (.obj kvs)))).2.apply prev
      = some { data := some (.obj kvs),
               history := some (jsonCopy (fetchOnce true h (.response st (.ok (.obj kvs)))).1),
               error := none } ∧
    ∀ k, kvs.lookup k = none → getProp (.obj kvs) k = .ok .undefined := by
  constructor
  · rw [fetchOnce_success h st (.obj kvs) hst rfl]; rfl
  · intro k hk
    simp [getProp, hk]

/-- C17, amended, at a concrete input: the body `{ mode: "auto" }` with status 200. -/
theorem object_body_published_unchanged_witness :
    200 ≠ 401 ∧
    (fetchOnce true emptyHistory (.response 200 (.ok (.obj [("mode", .str "auto")])))).2.apply
        none
      = some { data := some (.obj [("mode", .str "auto")]),
               history := some [[.num 0], [.num 0], [.num 0], [.num 0]], error := none } ∧
    getProp (.obj [("mode", .str "auto")]) "densities" = .ok .undefined :=
  ⟨by decide,
   (object_body_published_unchanged emptyHistory none 200 [("mode", .str "auto")]
      (by decide)).1.trans rfl,
   (object_body_published_unchanged emptyHistory none 200 [("mode", .str "auto")]
      (by decide)).2 "densities" rfl⟩

/-! ## Which failures are published as unauthenticated (C20) -/

theorem sessionExpired_catchBlock (err : Thrown) (prev : Option Latest) :
    sessionExpired ((catchBlock err).apply prev)
      = (err.is401 || (errorValue err).strictEqStr "unauthenticated") := by
  unfold catchBlock Thrown.is401 errorValue
  by_cases h : (err.truthy && err.code.strictEqNum 401) = true
  · simp only [h, if_true, Bool.true_or]
    rfl
  · simp only [h, Bool.false_or]
    cases prev <;> rfl

/-- C20, as the specification states it, fails: a rejected request whose thrown value has
the message `"unauthenticated"` and no `code` is published as the error
`"unauthenticated"`, on which the dashboard clears the token, although no response had
status 401. -/
theorem marker_message_counterexample :
    ¬ unauthenticatedOnlyOn401 (.rejected markerMessageError) := by
  intro hc
  obtain ⟨body, hb⟩ := hc rfl
  exact Outcome.noConfusion hb

/-- C20, amended: the published error is `"unauthenticated"` exactly when the response had
status 401 or the value thrown by the failed request looks like the marker of line 23: it
is truthy with `code === 401`, or the text line 39 publishes for it
(`(err && err.message) || String(err)`) is itself `"unauthenticated"`.  A successful poll
is never published as unauthenticated. -/
theorem unauthenticated_only_for_marker (m : Bool) (h : History) (prev : Option Latest)
    (st : Nat) (err : Thrown) (data : JVal) (hst : st ≠ 401)
    (hdata : data.isNullish = false) :
    (∀ body, sessionExpired ((fetchOnce m h (.response 401 body)).2.apply prev) = true) ∧
    sessionExpired ((fetchOnce m h (.rejected err)).2.apply prev)
      = (err.is401 || (errorValue err).strictEqStr "unauthenticated") ∧
    sessionExpired ((fetchOnce m h (.response st (.error err))).2.apply prev)
      = (err.is401 || (errorValue err).strictEqStr "unauthenticated") ∧
    sessionExpired ((fetchOnce true h (.response st (.ok data))).2.apply prev) = false := by
  have h401 : (st == 401) = false := by simpa using hst
  refine ⟨fun body => ?_, ?_, ?_, ?_⟩
  · rw [fetchOnce_401]; rfl
  · simp only [fetchOnce]
    exact sessionExpired_catchBlock err prev
  · simp only [fetchOnce, h401]
    exact sessionExpired_catchBlock err prev
  · rw [fetchOnce_success h st data hst hdata]; rfl

/-- C20, amended, at a concrete input: an ordinary network failure after a snapshot is
not published as unauthenticated, the marker message is. -/
theorem unauthenticated_only_for_marker_witness :
    (500 ≠ 401 ∧ (countsBody 1 2 3 4).isNullish = false) ∧
    sessionExpired ((fetchOnce true emptyHistory (.rejected networkError)).2.apply none)
      = false ∧
    sessionExpired ((fetchOnce true emptyHistory (.response 500 (.error markerMessageError))).2.apply
      none) = true :=
  ⟨⟨by decide, rfl⟩,
   (unauthenticated_only_for_marker true emptyHistory none 500 networkError
      (countsBody 1 2 3 4) (by decide) rfl).2.1.trans rfl,
   (unauthenticated_only_for_marker true emptyHistory none 500 markerMessageError
      (countsBody 1 2 3 4) (by decide) rfl).2.2.1.trans rfl⟩

/-! ## The credential store (C16) -/

theorem lookup_filter_ne (st : Storage) (k : String) :
    (st.filter (fun p => p.1 != k)).lookup k = none := by
  induction st with
  | nil => rfl
  | cons p rest ih =>
    obtain ⟨a, b⟩ := p
    by_cases hp : a = k
    · have h1 : (a != k) = false := by simp [hp]
      rw [List.filter_cons]
      simp only [h1]
      exact ih
    · have h1 : (a != k) = true := by simp [hp]
      have h2 : (k == a) = false := by
        simp only [beq_eq_false_iff_ne, ne_eq]
        exact fun h => hp h.symm
      rw [List.filter_cons]
      simp only [h1, if_true, List.lookup_cons, h2]
      exact ih

theorem lookup_filter_other (st : Storage) (k k2 : String) (hk : k ≠ k2) :
    (st.filter (fun p => p.1 != k2)).lookup k = st.lookup k := by
  induction st with
  | nil => rfl
  | cons p rest ih =>
    obtain ⟨a, b⟩ := p
    by_cases hp : a = k2
    · have h1 : (a != k2) = false := by simp [hp]
      have h2 : (k == a) = false := by
        simp only [beq_eq_false_iff_ne, ne_eq]
        rw [hp]; exact hk
      rw [List.filter_cons]
      simp only [h1, List.lookup_cons, h2]
      exact ih
    · have h1 : (a != k2) = true := by simp [hp]
      rw [List.filter_cons]
      simp only [h1, if_true, List.lookup_cons]
      cases hq : (k == a)
      · exact ih
      · rfl

theorem getToken_saveToken (st : Storage) (token role : String) :
    getToken (saveToken st token role) = some token := by
  have h1 : ("traffic_token" == "traffic_role") = false := by decide
  have h2 : ("traffic_token" : String) ≠ "traffic_role" := by decide
  simp only [getToken, saveToken, Storage.getItem, Storage.setItem, List.lookup, h1]
  rw [lookup_filter_other _ _ _ h2]
  simp [List.lookup]

theorem getToken_clearToken (st : Storage) : getToken (clearToken st) = none := by
  have h2 : ("traffic_token" : String) ≠ "traffic_role" := by decide
  simp only [getToken, clearToken, Storage.getItem, Storage.removeItem]
  rw [lookup_filter_other _ _ _ h2, lookup_filter_ne]

/-- C16, as the specification states it, fails: after `saveToken("", role)` a token is
stored (the empty string) and `getAuthHeaders` returns `{}`, not
`{ Authorization: "Bearer " }`. -/
theorem empty_token_no_header_counterexample :
    ¬ headersCarryToken (saveToken [] "" "user") "" := by
  intro hc
  have h := hc rfl
  have e : getAuthHeaders (saveToken [] "" "user") = [] := rfl
  rw [e] at h
  exact List.noConfusion h

/-- C16, amended: `getAuthHeaders` returns exactly `{ Authorization: "Bearer " + token }`
when a non-empty token is stored (as after `saveToken(token, role)` with a non-empty
token) and `{}` when none is stored (as after `clearToken()`) or the stored token is
empty; and every request issued during an event of the hook carries the headers computed
from the store as it is at that event, whatever it was at mount. -/
theorem headers_from_current_store (st : Storage) (token role : String)
    (htok : token ≠ "") :
    (∀ st2 : Storage, getToken st2 = some token →
      getAuthHeaders st2 = [("Authorization", "Bearer " ++ token)]) ∧
    getAuthHeaders (saveToken st token role) = [("Authorization", "Bearer " ++ token)] ∧
    (∀ st2 : Storage, getToken st2 = none → getAuthHeaders st2 = []) ∧
    (∀ st2 : Storage, getToken st2 = some "" → getAuthHeaders st2 = []) ∧
    getAuthHeaders (clearToken st) = [] ∧
    ∀ (p : Page) (e : Event),
      (p.step (.hook e)).sent = p.sent ++
        List.replicate ((step p.hook e).fetchLog.length - p.hook.fetchLog.length)
          (getAuthHeaders p.storage) := by
  have hstored : ∀ st2 : Storage, getToken st2 = some token →
      getAuthHeaders st2 = [("Authorization", "Bearer " ++ token)] := by
    intro st2 h2
    simp [getAuthHeaders, h2, htok]
  have hnone : ∀ st2 : Storage, getToken st2 = none → getAuthHeaders st2 = [] := by
    intro st2 h2
    simp [getAuthHeaders, h2]
  refine ⟨hstored, hstored _ (getToken_saveToken st token role), hnone, ?_,
    hnone _ (getToken_clearToken st), fun p e => rfl⟩
  intro st2 h2
  simp [getAuthHeaders, h2]

/-- C16, amended, at a concrete input: the hook is mounted while logged out; a login, a
tick, a logout and another tick follow.  The three requests carry no header, the token of
the login, and no header again. -/
theorem headers_from_current_store_witness :
    ("abc" : String) ≠ "" ∧
    getAuthHeaders (saveToken [("traffic_token", "old")] "abc" "user")
      = [("Authorization", "Bearer abc")] ∧
    ((Page.mount [] 1000).run
        [.saveToken "abc" "user", .hook (.fire 0), .clearToken,
         .hook (.settle 1 (okCounts 1 2 3 4)), .hook (.fire 1)]).sent
      = [[], [("Authorization", "Bearer abc")], []] :=
  ⟨by decide,
   (headers_from_current_store [("traffic_token", "old")] "abc" "user" (by decide)).2.1,
   rfl⟩

/-! ## The loop goes on after every outcome (C15) -/

theorem fetchOnceRun_ends_normally (m : Bool) (h : History) (o : Outcome) :
    fetchOnceRun m h o = ((fetchOnce m h o).1, .ok (fetchOnce m h o).2) := by
  cases o with
  | rejected err => rfl
  | response st body =>
    by_cases h401 : st = 401
    · subst h401; rfl
    · have h401b : (st == 401) = false := by simpa using h401
      cases body with
      | error err => simp [fetchOnceRun, tryBlock, fetchOnce, h401b]
      | ok data =>
        cases m with
        | false => simp [fetchOnceRun, tryBlock, fetchOnce, h401b]
        | true =>
          simp only [fetchOnceRun, tryBlock, fetchOnce, h401b]
          generalize historyLoop data [0, 1, 2, 3] h = r
          obtain ⟨h1, e⟩ := r
          cases e <;> rfl

theorem resumeTick_eq_settle (s : State) (f : Nat) (r : Request) (o : Outcome)
    (hreq : s.requests.find? (fun x => x.fid == f) = some r) (htick : r.fromTick = true) :
    resumeTick s r o = step s (.settle f o) := by
  have hf : r.fid = f := by
    have := List.find?_some hreq
    simpa using this
  simp only [resumeTick, fetchOnceRun_ends_normally, step, hreq, htick, hf]
  rfl

/-- C15: the tick of a running effect run issues a request and waits for it.  Whatever
the outcome of that request (success, 401, network failure, decode failure, or any
other), the body of `fetchOnce`, in which every throw is explicit, ends normally: what is
thrown out of the `try` block is caught, and the result is the one `fetchOnce` denotes.
The rest of the callback therefore reaches line 50: the request leaves the requests in
flight and `loop()` sets a new timeout of the same effect run, with the current interval
as delay. -/
theorem tick_reschedules_after_any_outcome (s s2 : State) (t f : Nat) (tm : Timer)
    (r : Request) (o : Outcome)
    (htimer : s.timers.find? (fun x => x.tid == t) = some tm)
    (hrun : (s.inst tm.inst).running = true)
    (hreq : s2.requests.find? (fun x => x.fid == f) = some r)
    (htick : r.fromTick = true) :
    (step s (.fire t)).requests
      = s.requests ++ [{ fid := s.fetchLog.length, inst := tm.inst, fromTick := true }] ∧
    (∀ (m : Bool) (h : History),
      fetchOnceRun m h o = ((fetchOnce m h o).1, .ok (fetchOnce m h o).2)) ∧
    step s2 (.settle f o) = resumeTick s2 r o ∧
    (step s2 (.settle f o)).requests = s2.requests.filter (fun x => x.fid != f) ∧
    (step s2 (.settle f o)).timers
      = s2.timers ++ [{ tid := s2.nextTimer, inst := r.inst, delay := s2.interval }] := by
  have hrun2 : (({ s with timers := s.timers.filter (fun x => x.tid != t) } : State).inst
      tm.inst).running = true := hrun
  refine ⟨?_, fun m h => fetchOnceRun_ends_normally m h o,
    (resumeTick_eq_settle s2 f r o hreq htick).symm, ?_, ?_⟩
  · simp only [step, htimer, hrun2]
    rfl
  · simp only [step, hreq, htick]
    rfl
  · simp only [step, hreq, htick]
    rfl

/-- C15 at a concrete input: the first tick of a mounted hook whose initial request has
been answered; the request of the tick is rejected (the `try` block throws, the `catch`
block publishes the error), and the next timeout is set. -/
theorem tick_reschedules_after_any_outcome_witness :
    ((run (mount 1000) [.settle 0 (okCounts 1 2 3 4)]).timers.find? (fun x => x.tid == 0)
        = some { tid := 0, inst := 0, delay := 1000 } ∧
      ((run (mount 1000) [.settle 0 (okCounts 1 2 3 4)]).inst 0).running = true ∧
      (run (mount 1000) [.settle 0 (okCounts 1 2 3 4), .fire 0]).requests.find?
          (fun x => x.fid == 1) = some { fid := 1, inst := 0, fromTick := true }) ∧
    (run (mount 1000) [.settle 0 (okCounts 1 2 3 4), .fire 0]).requests
      = [{ fid := 1, inst := 0, fromTick := true }] ∧
    (tryBlock true [[.num 1], [.num 2], [.num 3], [.num 4]] (.rejected networkError)).2
      = .error networkError ∧
    (fetchOnceRun true [[.num 1], [.num 2], [.num 3], [.num 4]] (.rejected networkError)).2
      = .ok (.mergeError (.str "Failed to fetch")) ∧
    (step (run (mount 1000) [.settle 0 (okCounts 1 2 3 4), .fire 0])
        (.settle 1 (.rejected networkError))).requests = [] ∧
    (step (run (mount 1000) [.settle 0 (okCounts 1 2 3 4), .fire 0])
        (.settle 1 (.rejected networkError))).timers
      = [{ tid := 1, inst := 0, delay := 1000 }] :=
  ⟨⟨rfl, rfl, rfl⟩,
   (tick_reschedules_after_any_outcome
      (run (mount 1000) [.settle 0 (okCounts 1 2 3 4)])
      (run (mount 1000) [.settle 0 (okCounts 1 2 3 4), .fire 0]) 0 1
      { tid := 0, inst := 0, delay := 1000 } { fid := 1, inst := 0, fromTick := true }
      (.rejected networkError) rfl rfl rfl rfl).1.trans rfl,
   rfl,
   (congrArg Prod.snd ((tick_reschedules_after_any_outcome
      (run (mount 1000) [.settle 0 (okCounts 1 2 3 4)])
      (run (mount 1000) [.settle 0 (okCounts 1 2 3 4), .fire 0]) 0 1
      { tid := 0, inst := 0, delay := 1000 } { fid := 1, inst := 0, fromTick := true }
      (.rejected networkError) rfl rfl rfl rfl).2.1 true
        [[.num 1], [.num 2], [.num 3], [.num 4]])).trans rfl,
   (tick_reschedules_after_any_outcome
      (run (mount 1000) [.settle 0 (okCounts 1 2 3 4)])
      (run (mount 1000) [.settle 0 (okCounts 1 2 3 4), .fire 0]) 0 1
      { tid := 0, inst := 0, delay := 1000 } { fid := 1, inst := 0, fromTick := true }
      (.rejected networkError) rfl rfl rfl rfl).2.2.2.1.trans rfl,
   (tick_reschedules_after_any_outcome
      (run (mount 1000) [.settle 0 (okCounts 1 2 3 4)])
      (run (mount 1000) [.settle 0 (okCounts 1 2 3 4), .fire 0]) 0 1
      { tid := 0, inst := 0, delay := 1000 } { fid := 1, inst := 0, fromTick := true }
      (.rejected networkError) rfl rfl rfl rfl).2.2.2.2.trans rfl⟩

/-! ## Changing the interval (C13) -/

theorem clearTimeout_interval (s : State) (id : Option Nat) :
    (clearTimeout s id).interval = s.interval := by
  cases id <;> rfl

theorem clearTimeout_timers_mem (s : State) (id : Option Nat) (tm : Timer)
    (h : tm ∈ (clearTimeout s id).timers) : tm ∈ s.timers := by
  cases id with
  | none => exact h
  | some t => exact (List.mem_filter.mp h).1

theorem cleanup_interval (s : State) (i : Nat) : (cleanup s i).interval = s.interval := by
  simp [cleanup, clearTimeout_interval]

theorem cleanup_timers_mem (s : State) (i : Nat) (tm : Timer)
    (h : tm ∈ (cleanup s i).timers) : tm ∈ s.timers := by
  unfold cleanup at h
  exact clearTimeout_timers_mem
    { s with insts := s.insts.set i { s.inst i with mounted := false } } _ tm h

theorem waitsFrom_loop (old : List Timer) (ms : Nat) (s : State) (i : Nat)
    (h : WaitsFrom old ms s) : WaitsFrom old ms (loop s i) := by
  obtain ⟨h1, h2⟩ := h
  refine ⟨h1, fun tm htm => ?_⟩
  simp only [loop, List.mem_append, List.mem_singleton] at htm
  rcases htm with htm | htm
  · exact h2 tm htm
  · right; rw [htm]; exact h1

theorem waitsFrom_sub (old : List Timer) (ms : Nat) (s s2 : State)
    (h : WaitsFrom old ms s) (hi : s2.interval = s.interval)
    (ht : ∀ tm ∈ s2.timers, tm ∈ s.timers) : WaitsFrom old ms s2 :=
  ⟨hi.trans h.1, fun tm htm => h.2 tm (ht tm htm)⟩

theorem step_waitsFrom (old : List Timer) (ms : Nat) (s : State) (e : Event)
    (he : e.changesInterval = false) (h : WaitsFrom old ms s) :
    WaitsFrom old ms (step s e) := by
  cases e with
  | setIntervalMs v => simp [Event.changesInterval] at he
  | renderInterval v => simp [Event.changesInterval] at he
  | setRunning b =>
    simp only [step]
    split
    · exact h
    · apply waitsFrom_loop
      exact waitsFrom_sub old ms s _ h (cleanup_interval s _)
        (fun tm htm => cleanup_timers_mem s _ tm htm)
  | fire t =>
    simp only [step]
    split
    · exact h
    · have hf : WaitsFrom old ms { s with timers := s.timers.filter (fun x => x.tid != t) } :=
        waitsFrom_sub old ms s _ h rfl (fun tm htm => (List.mem_filter.mp htm).1)
      split
      · exact waitsFrom_sub old ms _ _ hf rfl (fun tm htm => htm)
      · exact waitsFrom_loop old ms _ _ hf
  | settle f o =>
    simp only [step]
    split
    · exact h
    · split
      · apply waitsFrom_loop
        exact waitsFrom_sub old ms s _ h rfl (fun tm htm => htm)
      · exact waitsFrom_sub old ms s _ h rfl (fun tm htm => htm)
  | unmount =>
    simp only [step]
    split
    · exact h
    · exact waitsFrom_sub old ms s _ h (cleanup_interval s _)
        (fun tm htm => cleanup_timers_mem s _ tm htm)

theorem run_waitsFrom (old : List Timer) (ms : Nat) (evs : List Event) :
    ∀ s : State, (∀ e ∈ evs, e.changesInterval = false) → WaitsFrom old ms s →
      WaitsFrom old ms (run s evs) := by
  induction evs with
  | nil => intro s _ h; exact h
  | cons e rest ih =>
    intro s hno h
    exact ih (step s e) (fun e2 h2 => hno e2 (by simp [h2]))
      (step_waitsFrom old ms s e (hno e (by simp)) h)

/-- C13: changing the interval, by the returned `setIntervalMs` or by a render with a new
`intervalMs` option, leaves the pending timeouts as they are, delays included; the next
`loop()` sets its timeout with the new value, and as long as no further change occurs
every pending timeout is one that was pending before the change or has the new value as
its delay. -/
theorem interval_change_applies_from_next_wait (s : State) (ms : Nat) (e : Event)
    (evs : List Event)
    (he : e = .setIntervalMs ms ∨
      (e = .renderInterval ms ∧ s.alive = true ∧ ms ≠ s.intervalProp))
    (hno : ∀ e2 ∈ evs, e2.changesInterval = false) :
    (step s e).timers = s.timers ∧
    (∀ i, (loop (step s e) i).timers
      = s.timers ++ [{ tid := s.nextTimer, inst := i, delay := ms }]) ∧
    (run (step s e) evs).interval = ms ∧
    ∀ tm ∈ (run (step s e) evs).timers, tm ∈ s.timers ∨ tm.delay = ms := by
  have hstep : (step s e).timers = s.timers ∧ (step s e).interval = ms ∧
      (step s e).nextTimer = s.nextTimer := by
    rcases he with he | ⟨he, ha, hp⟩
    · subst he; exact ⟨rfl, rfl, rfl⟩
    · subst he
      have hc : (!s.alive || ms == s.intervalProp) = false := by simp [ha, hp]
      simp only [step, hc]
      exact ⟨rfl, rfl, rfl⟩
  obtain ⟨ht, hi, hn⟩ := hstep
  have hw : WaitsFrom s.timers ms (step s e) :=
    ⟨hi, fun tm htm => Or.inl (ht ▸ htm)⟩
  have hr := run_waitsFrom s.timers ms evs (step s e) hno hw
  refine ⟨ht, fun i => ?_, hr.1, hr.2⟩
  simp only [loop, ht, hi, hn]

/-- C13 at a concrete input: `setIntervalMs(500)` while the first wait of 1000 ms is
pending; the pending timeout keeps its 1000 ms and the timeout set after the tick has
500 ms. -/
theorem interval_change_applies_from_next_wait_witness :
    ((Event.setIntervalMs 500 = .setIntervalMs 500 ∨
        (Event.setIntervalMs 500 = .renderInterval 500 ∧ (mount 1000).alive = true ∧
          500 ≠ (mount 1000).intervalProp)) ∧
      ∀ e2 ∈ [Event.fire 0, .settle 1 (okCounts 1 2 3 4)], e2.changesInterval = false) ∧
    (step (mount 1000) (.setIntervalMs 500)).timers = [{ tid := 0, inst := 0, delay := 1000 }] ∧
    (run (step (mount 1000) (.setIntervalMs 500))
        [.fire 0, .settle 1 (okCounts 1 2 3 4)]).timers
      = [{ tid := 1, inst := 0, delay := 500 }] := by
  have hno : ∀ e2 ∈ [Event.fire 0, .settle 1 (okCounts 1 2 3 4)],
      e2.changesInterval = false := by
    intro e2 h2
    simp only [List.mem_cons, List.mem_singleton, List.not_mem_nil, or_false] at h2
    rcases h2 with h2 | h2 <;> subst h2 <;> rfl
  exact ⟨⟨Or.inl rfl, hno⟩,
    (interval_change_applies_from_next_wait (mount 1000) 500 (.setIntervalMs 500)
      [.fire 0, .settle 1 (okCounts 1 2 3 4)] (Or.inl rfl) hno).1.trans rfl,
    rfl⟩

/-! ## The lanes stay aligned (C21) -/

theorem pushShift_length (arr : List JVal) (v : JVal) (h : arr.length ≤ 30) :
    (pushShift arr v).length = min (arr.length + 1) 30 := by
  unfold pushShift
  show (if (arr ++ [v]).length > 30 then (arr ++ [v]).tail else arr ++ [v]).length
    = min (arr.length + 1) 30
  split
  · rename_i hc
    simp only [List.length_append, List.length_singleton] at hc
    simp only [List.length_tail, List.length_append, List.length_singleton]
    omega
  · rename_i hc
    simp only [List.length_append, List.length_singleton] at hc
    simp only [List.length_append, List.length_singleton]
    omega

theorem historyLoop_aligned (data : JVal) (h : History) (ha : LanesAligned h) :
    LanesAligned (historyLoop data [0, 1, 2, 3] h).1 := by
  obtain ⟨a, b, c, d, rfl, hab, hbc, hcd, hle⟩ := ha
  cases hc : getProp data "counts" with
  | error e =>
    have : historyLoop data [0, 1, 2, 3] [a, b, c, d] = ([a, b, c, d], some e) := by
      simp [historyLoop, laneValue, hc]
    rw [this]
    exact ⟨a, b, c, d, rfl, hab, hbc, hcd, hle⟩
  | ok cv =>
    have hv : ∀ i, laneValue data i
        = .ok (if cv.truthy then getIndex cv i else .num 0) := by
      intro i
      simp only [laneValue, hc]
      split <;> rfl
    have : historyLoop data [0, 1, 2, 3] [a, b, c, d] =
        ([pushShift a (if cv.truthy then getIndex cv 0 else .num 0),
          pushShift b (if cv.truthy then getIndex cv 1 else .num 0),
          pushShift c (if cv.truthy then getIndex cv 2 else .num 0),
          pushShift d (if cv.truthy then getIndex cv 3 else .num 0)], none) := by
      simp [historyLoop, hv, setLane]
    rw [this]
    refine ⟨_, _, _, _, rfl, ?_, ?_, ?_, ?_⟩
    · rw [pushShift_length a _ hle, pushShift_length b _ (by omega)]; omega
    · rw [pushShift_length b _ (by omega), pushShift_length c _ (by omega)]; omega
    · rw [pushShift_length c _ (by omega), pushShift_length d _ (by omega)]; omega
    · rw [pushShift_length a _ hle]; omega

theorem fetchOnce_aligned (m : Bool) (h : History) (o : Outcome) (ha : LanesAligned h) :
    LanesAligned (fetchOnce m h o).1 := by
  cases o with
  | rejected err => exact ha
  | response st body =>
    by_cases h401 : st = 401
    · subst h401; rw [fetchOnce_401]; exact ha
    · have h401b : (st == 401) = false := by simpa using h401
      cases body with
      | error err => simpa [fetchOnce, h401b] using ha
      | ok data =>
        cases m with
        | false => simpa [fetchOnce, h401b] using ha
        | true =>
          have hl := historyLoop_aligned data h ha
          simp only [fetchOnce, h401b]
          generalize historyLoop data [0, 1, 2, 3] h = r at hl
          obtain ⟨h1, e⟩ := r
          cases e <;> exact hl

theorem cleanup_history (s : State) (i : Nat) : (cleanup s i).history = s.history := by
  simp [cleanup, clearTimeout_history]

theorem step_aligned (s : State) (e : Event) (ha : LanesAligned s.history) :
    LanesAligned (step s e).history := by
  cases e with
  | setRunning b =>
    simp only [step]
    split
    · exact ha
    · have : (runEffect { cleanup s (s.insts.length - 1) with running := b }).history
          = (cleanup s (s.insts.length - 1)).history := rfl
      rw [this, cleanup_history]; exact ha
  | setIntervalMs ms => exact ha
  | renderInterval ms =>
    simp only [step]
    split <;> exact ha
  | fire t =>
    simp only [step]
    split
    · exact ha
    · split <;> exact ha
  | settle f o =>
    simp only [step]
    split
    · exact ha
    · rename_i r _
      split
      · exact fetchOnce_aligned _ _ o ha
      · exact fetchOnce_aligned _ _ o ha
  | unmount =>
    simp only [step]
    split
    · exact ha
    · have : ({ cleanup s (s.insts.length - 1) with alive := false } : State).history
          = (cleanup s (s.insts.length - 1)).history := rfl
      rw [this, cleanup_history]; exact ha

theorem run_aligned (evs : List Event) :
    ∀ s : State, LanesAligned s.history → LanesAligned (run s evs).history := by
  induction evs with
  | nil => intro s h; exact h
  | cons e rest ih => intro s h; exact ih (step s e) (step_aligned s e h)

theorem runPolls_aligned (os : List Outcome) :
    ∀ (h : History) (l : Option Latest), LanesAligned h →
      LanesAligned (runPolls os (h, l)).1 := by
  induction os with
  | nil => intro h l ha; exact ha
  | cons o rest ih =>
    intro h l ha
    simp only [runPolls]
    exact ih _ _ (fetchOnce_aligned true h o ha)

/-- C21: after any sequence of events of a mounted hook (requests answered with any
outcome: successes with or without `counts`, 401s, transient failures; timer ticks;
pauses and resumes; interval changes; the unmount) the history reference holds four
lanes of one common length, and that length is at most 30.  The same holds after any
sequence of calls of `fetchOnce` on four empty lanes. -/
theorem lanes_same_length_at_most_thirty (intervalMs : Nat) (evs : List Event)
    (os : List Outcome) :
    (∃ a b c d : List JVal, (run (mount intervalMs) evs).history = [a, b, c, d] ∧
      a.length = b.length ∧ b.length = c.length ∧ c.length = d.length ∧ a.length ≤ 30) ∧
    ∃ a b c d : List JVal, (runPolls os (emptyHistory, none)).1 = [a, b, c, d] ∧
      a.length = b.length ∧ b.length = c.length ∧ c.length = d.length ∧ a.length ≤ 30 := by
  have h0 : LanesAligned emptyHistory := ⟨[], [], [], [], rfl, rfl, rfl, rfl, by simp⟩
  exact ⟨run_aligned evs (mount intervalMs) h0, runPolls_aligned os emptyHistory none h0⟩

/-! ## The sparkline and its box (C22) -/

theorem mathMaxWith_bounds (data : List ℚ) (last : ℚ) :
    last ≤ mathMaxWith data last ∧ ∀ v ∈ data, v ≤ mathMaxWith data last := by
  induction data with
  | nil => exact ⟨le_refl _, fun v hv => absurd hv (List.not_mem_nil v)⟩
  | cons a rest ih =>
    have hstep : mathMaxWith (a :: rest) last = max a (mathMaxWith rest last) := rfl
    rw [hstep]
    refine ⟨le_trans ih.1 (le_max_right _ _), fun v hv => ?_⟩
    rcases List.mem_cons.mp hv with hv | hv
    · rw [hv]; exact le_max_left _ _
    · exact le_trans (ih.2 v hv) (le_max_right _ _)

theorem mathMinWith_bounds (data : List ℚ) (last : ℚ) :
    mathMinWith data last ≤ last ∧ ∀ v ∈ data, mathMinWith data last ≤ v := by
  induction data with
  | nil => exact ⟨le_refl _, fun v hv => absurd hv (List.not_mem_nil v)⟩
  | cons a rest ih =>
    have hstep : mathMinWith (a :: rest) last = min a (mathMinWith rest last) := rfl
    rw [hstep]
    refine ⟨le_trans (min_le_right _ _) ih.1, fun v hv => ?_⟩
    rcases List.mem_cons.mp hv with hv | hv
    · rw [hv]; exact min_le_left _ _
    · exact le_trans (min_le_right _ _) (ih.2 v hv)

theorem overflowBound_gt_one : 1 < overflowBound := by
  unfold overflowBound
  norm_num

/-- An operation whose exact result lies between two in-range numbers does not overflow,
and its rounded result lies between their roundings. -/
theorem finish_between (rnd : ℚ → ℚ) (hmono : Monotone rnd) (q a b : ℚ)
    (ha : a ≤ q) (hb : q ≤ b) (hlo : -overflowBound < a) (hhi : b < overflowBound) :
    finish rnd q = .fin (rnd q) ∧ rnd a ≤ rnd q ∧ rnd q ≤ rnd b := by
  have h1 : ¬ overflowBound ≤ q := by intro h; linarith
  have h2 : ¬ q ≤ -overflowBound := by intro h; linarith
  refine ⟨?_, hmono ha, hmono hb⟩
  simp only [finish, h1, h2, if_false]

theorem sparkRange_finite (rnd : ℚ → ℚ) (hmono : Monotone rnd) (h1 : rnd 1 = 1)
    (data : List ℚ)
    (hfin : mathMaxWith data 1 - mathMinWith data 0 < overflowBound) :
    sparkRange rnd data = .fin (rnd (mathMaxWith data 1 - mathMinWith data 0)) ∧
    1 ≤ rnd (mathMaxWith data 1 - mathMinWith data 0) := by
  have hB := overflowBound_gt_one
  have hmx := (mathMaxWith_bounds data 1).1
  have hmn := (mathMinWith_bounds data 0).1
  have hd : 1 ≤ mathMaxWith data 1 - mathMinWith data 0 := by linarith
  obtain ⟨hf, hlo, _⟩ := finish_between rnd hmono _ 1 _ hd (le_refl _) (by linarith) hfin
  rw [h1] at hlo
  have hne : rnd (mathMaxWith data 1 - mathMinWith data 0) ≠ 0 := by
    intro h0; rw [h0] at hlo; exact absurd hlo (by norm_num)
  refine ⟨?_, hlo⟩
  simp only [sparkRange, fsub, hf, orOne, hne, if_false]

theorem sparkRange_never_zero (rnd : ℚ → ℚ) (hmono : Monotone rnd) (h1 : rnd 1 = 1)
    (data : List ℚ) :
    sparkRange rnd data = .inf false ∨
      ∃ r : ℚ, sparkRange rnd data = .fin r ∧ 1 ≤ r := by
  by_cases hfin : mathMaxWith data 1 - mathMinWith data 0 < overflowBound
  · right
    exact ⟨_, sparkRange_finite rnd hmono h1 data hfin⟩
  · left
    have hge : overflowBound ≤ mathMaxWith data 1 - mathMinWith data 0 := not_lt.mp hfin
    simp only [sparkRange, fsub, finish, hge, if_true, orOne]

theorem sparkPoint_x (rnd : ℚ → ℚ) (hmono : Monotone rnd) (h0 : rnd 0 = 0) (h1 : rnd 1 = 1)
    (data : List ℚ) (width height : ℚ) (hn : 2 ≤ data.length) (hw : 0 < width)
    (hrw : rnd width = width) (hwB : width < overflowBound) (i : Nat) (v : ℚ)
    (hi : i < data.length) :
    ∃ x : ℚ, (sparkPoint rnd data width height i v).1 = .fin x ∧ 0 ≤ x ∧ x ≤ width ∧
      (i = 0 → x = 0) ∧ (i = data.length - 1 → x = width) := by
  have hB := overflowBound_gt_one
  have hden : (0 : ℚ) < (data.length : ℚ) - 1 := by
    have : (2 : ℚ) ≤ (data.length : ℚ) := by exact_mod_cast hn
    linarith
  have hdne : (data.length : ℚ) - 1 ≠ 0 := ne_of_gt hden
  have hiq : (i : ℚ) ≤ (data.length : ℚ) - 1 := by
    have : (i : ℚ) + 1 ≤ (data.length : ℚ) := by exact_mod_cast hi
    linarith
  have ht0 : 0 ≤ (i : ℚ) / ((data.length : ℚ) - 1) :=
    div_nonneg (Nat.cast_nonneg i) (le_of_lt hden)
  have ht1 : (i : ℚ) / ((data.length : ℚ) - 1) ≤ 1 := (div_le_one hden).mpr hiq
  obtain ⟨hf1, hl1, hu1⟩ := finish_between rnd hmono _ 0 1 ht0 ht1 (by linarith) hB
  rw [h0] at hl1
  rw [h1] at hu1
  have hp0 : 0 ≤ rnd ((i : ℚ) / ((data.length : ℚ) - 1)) * width :=
    mul_nonneg hl1 (le_of_lt hw)
  have hp1 : rnd ((i : ℚ) / ((data.length : ℚ) - 1)) * width ≤ width := by
    calc rnd ((i : ℚ) / ((data.length : ℚ) - 1)) * width ≤ 1 * width :=
          mul_le_mul_of_nonneg_right hu1 (le_of_lt hw)
      _ = width := one_mul _
  obtain ⟨hf2, hl2, hu2⟩ := finish_between rnd hmono _ 0 width hp0 hp1 (by linarith) hwB
  rw [h0] at hl2
  rw [hrw] at hu2
  refine ⟨rnd (rnd ((i : ℚ) / ((data.length : ℚ) - 1)) * width), ?_, hl2, hu2, ?_, ?_⟩
  · simp only [sparkPoint, fdiv, hdne, if_false, hf1, fmul, hf2]
  · intro hi0
    subst hi0
    simp [h0]
  · intro hil
    have hcast : ((data.length - 1 : Nat) : ℚ) = (data.length : ℚ) - 1 := by
      rw [Nat.cast_sub (by omega)]; simp
    rw [hil, hcast, div_self hdne, h1, one_mul, hrw]

theorem sparkPoint_y (rnd : ℚ → ℚ) (hmono : Monotone rnd) (h0 : rnd 0 = 0) (h1 : rnd 1 = 1)
    (data : List ℚ) (width height : ℚ) (hh : 0 < height)
    (hrh : rnd height = height) (hhB : height < overflowBound)
    (hfin : mathMaxWith data 1 - mathMinWith data 0 < overflowBound)
    (i : Nat) (v : ℚ) (hv : v ∈ data) :
    ∃ y : ℚ, (sparkPoint rnd data width height i v).2 = .fin y ∧ 0 ≤ y ∧ y ≤ height := by
  have hB := overflowBound_gt_one
  obtain ⟨hr, hr1⟩ := sparkRange_finite rnd hmono h1 data hfin
  have hmax := (mathMaxWith_bounds data 1).2 v hv
  have hmin := (mathMinWith_bounds data 0).2 v hv
  have hrpos : 0 < rnd (mathMaxWith data 1 - mathMinWith data 0) := by linarith
  have hrne : rnd (mathMaxWith data 1 - mathMinWith data 0) ≠ 0 := ne_of_gt hrpos
  -- value - min
  obtain ⟨hfa, hla, hua⟩ := finish_between rnd hmono (v - mathMinWith data 0) 0
    (mathMaxWith data 1 - mathMinWith data 0) (by linarith) (by linarith) (by linarith) hfin
  rw [h0] at hla
  -- (value - min) / range
  have ht0 : 0 ≤ rnd (v - mathMinWith data 0) / rnd (mathMaxWith data 1 - mathMinWith data 0) :=
    div_nonneg hla (le_of_lt hrpos)
  have ht1 : rnd (v - mathMinWith data 0) / rnd (mathMaxWith data 1 - mathMinWith data 0) ≤ 1 :=
    (div_le_one hrpos).mpr hua
  obtain ⟨hft, hlt, hut⟩ := finish_between rnd hmono _ 0 1 ht0 ht1 (by linarith) hB
  rw [h0] at hlt
  rw [h1] at hut
  -- times height
  have hs0 : 0 ≤ rnd (rnd (v - mathMinWith data 0) /
      rnd (mathMaxWith data 1 - mathMinWith data 0)) * height := mul_nonneg hlt (le_of_lt hh)
  have hs1 : rnd (rnd (v - mathMinWith data 0) /
      rnd (mathMaxWith data 1 - mathMinWith data 0)) * height ≤ height := by
    calc _ ≤ 1 * height := mul_le_mul_of_nonneg_right hut (le_of_lt hh)
      _ = height := one_mul _
  obtain ⟨hfs, hls, hus⟩ := finish_between rnd hmono _ 0 height hs0 hs1 (by linarith) hhB
  rw [h0] at hls
  rw [hrh] at hus
  -- height minus that
  obtain ⟨hfy, hly, huy⟩ := finish_between rnd hmono
    (height - rnd (rnd (rnd (v - mathMinWith data 0) /
      rnd (mathMaxWith data 1 - mathMinWith data 0)) * height)) 0 height
    (by linarith) (by linarith) (by linarith) hhB
  rw [h0] at hly
  rw [hrh] at huy
  refine ⟨_, ?_, hly, huy⟩
  simp only [sparkPoint, hr, fsub, hfa, fdiv, hrne, if_false, hft, fmul, hfs, hfy]

/-- C22, as the specification states it, fails: for the list `[2^1023, -2^1023]` of two
finite binary64 values the difference `max - min` is `2^1024`, which overflows to
`Infinity`; for the first entry `value - min` overflows as well, so that
`(value - min) / range` is `NaN` and the point has `y = NaN`, outside the box, whatever
the rounding. -/
theorem sparkline_overflow_counterexample :
    ¬ ∃ rnd : ℚ → ℚ, sparklineInBox rnd [2 ^ 1023, -(2 ^ 1023)] 60 20 := by
  rintro ⟨rnd, pts, hp, hall⟩
  have hmx : mathMaxWith [2 ^ 1023, -(2 ^ 1023)] 1 = 2 ^ 1023 := by
    simp only [mathMaxWith, List.foldr]
    norm_num
  have hmn : mathMinWith [2 ^ 1023, -(2 ^ 1023)] 0 = -(2 ^ 1023) := by
    simp only [mathMinWith, List.foldr]
    norm_num
  have hov : overflowBound ≤ (2 : ℚ) ^ 1023 - -(2 ^ 1023) := by
    unfold overflowBound
    norm_num
  have hy : (sparkPoint rnd [2 ^ 1023, -(2 ^ 1023)] 60 20 0 (2 ^ 1023)).2 = .nan := by
    simp only [sparkPoint, sparkRange, hmx, hmn, fsub, finish, hov, if_true, orOne, fdiv, fmul]
  have hlen : ¬ ([2 ^ 1023, -(2 ^ 1023)] : List ℚ).length < 2 := by simp
  simp only [Sparkline, hlen, if_false, Option.some.injEq] at hp
  have hmem : sparkPoint rnd [2 ^ 1023, -(2 ^ 1023)] 60 20 0 (2 ^ 1023) ∈ pts := by
    rw [← hp]
    exact List.mem_mapIdx.mpr ⟨0, by simp, rfl⟩
  obtain ⟨x, y, hxy, _⟩ := hall _ hmem
  have h2 := congrArg Prod.snd hxy
  rw [hy] at h2
  exact JNum.noConfusion h2

/-- C22, amended: for a list of at least two finite numbers and positive width and
height, with a rounding that is monotone and exact on 0, 1, the width and the height, the
divisor `range` of `Sparkline` is never zero: it is `Infinity` when `max(data, 1) -
min(data, 0)` overflows and the rounded difference, at least 1, otherwise.  When the
difference does not overflow, the component plots one point per entry, the point for
entry `i` computed as in lines 56-57 with the non-zero divisor `n - 1`; its `x` is 0 for
the first entry and `width` for the last, and every point is a pair of finite numbers with
`0 ≤ x ≤ width` and `0 ≤ y ≤ height`.  A list with fewer than two values, like a missing
list, gives the placeholder, for which no point is computed. -/
theorem sparkline_points_in_box (rnd : ℚ → ℚ) (data : List ℚ) (width height : ℚ)
    (hn : 2 ≤ data.length) (hw : 0 < width) (hh : 0 < height)
    (hmono : Monotone rnd) (h0 : rnd 0 = 0) (h1 : rnd 1 = 1)
    (hrw : rnd width = width) (hrh : rnd height = height)
    (hwB : width < overflowBound) (hhB : height < overflowBound)
    (hfin : mathMaxWith data 1 - mathMinWith data 0 < overflowBound) :
    (∀ any : List ℚ, sparkRange rnd any = .inf false ∨
      ∃ r : ℚ, sparkRange rnd any = .fin r ∧ 1 ≤ r) ∧
    sparkRange rnd data = .fin (rnd (mathMaxWith data 1 - mathMinWith data 0)) ∧
    1 ≤ rnd (mathMaxWith data 1 - mathMinWith data 0) ∧
    (data.length : ℚ) - 1 ≠ 0 ∧
    (∃ pts, Sparkline rnd (some data) width height = some pts ∧ pts.length = data.length ∧
      (∀ i v, data[i]? = some v → pts[i]? = some (sparkPoint rnd data width height i v)) ∧
      (∀ v, (sparkPoint rnd data width height 0 v).1 = .fin 0) ∧
      (∀ v, (sparkPoint rnd data width height (data.length - 1) v).1 = .fin width) ∧
      ∀ p ∈ pts, inBox width height p) ∧
    (∀ w h : ℚ, Sparkline rnd none w h = none) ∧
    ∀ (short : List ℚ) (w h : ℚ), short.length < 2 → Sparkline rnd (some short) w h = none := by
  have hden : (data.length : ℚ) - 1 ≠ 0 := by
    have : (2 : ℚ) ≤ (data.length : ℚ) := by exact_mod_cast hn
    intro hz
    linarith
  have hlt : ¬ data.length < 2 := by omega
  obtain ⟨hr, hr1⟩ := sparkRange_finite rnd hmono h1 data hfin
  refine ⟨sparkRange_never_zero rnd hmono h1, hr, hr1, hden, ?_, fun _ _ => rfl, ?_⟩
  · refine ⟨data.mapIdx (fun index value => sparkPoint rnd data width height index value),
      ?_, List.length_mapIdx, ?_, ?_, ?_, ?_⟩
    · simp only [Sparkline, hlt, if_false]
    · intro i v hiv
      simp [List.getElem?_mapIdx, hiv]
    · intro v
      obtain ⟨x, hx, _, _, hfirst, _⟩ := sparkPoint_x rnd hmono h0 h1 data width height hn hw
        hrw hwB 0 v (by omega)
      rw [hx, hfirst rfl]
    · intro v
      obtain ⟨x, hx, _, _, _, hlast⟩ := sparkPoint_x rnd hmono h0 h1 data width height hn hw
        hrw hwB (data.length - 1) v (by omega)
      rw [hx, hlast rfl]
    · intro p hp
      obtain ⟨i, hi, hpi⟩ := List.mem_mapIdx.mp hp
      obtain ⟨x, hx, hx0, hx1, _, _⟩ := sparkPoint_x rnd hmono h0 h1 data width height hn hw
        hrw hwB i data[i] hi
      obtain ⟨y, hy, hy0, hy1⟩ := sparkPoint_y rnd hmono h0 h1 data width height hh hrh hhB
        hfin i data[i] (List.getElem_mem hi)
      refine ⟨x, y, ?_, hx0, hx1, hy0, hy1⟩
      rw [← hpi]
      exact Prod.ext hx hy
  · intro short w h hs
    simp [Sparkline, hs]

/-- C22, amended, at a concrete input: the history `[3, 0, 7]` in the default box of 60
by 20, with exact arithmetic as the rounding. -/
theorem sparkline_points_in_box_witness :
    (2 ≤ ([3, 0, 7] : List ℚ).length ∧ (0 : ℚ) < 60 ∧ (0 : ℚ) < 20 ∧
      Monotone (fun q : ℚ => q) ∧ (60 : ℚ) < overflowBound ∧ (20 : ℚ) < overflowBound ∧
      mathMaxWith [3, 0, 7] 1 - mathMinWith [3, 0, 7] 0 < overflowBound) ∧
    sparkRange (fun q => q) [3, 0, 7] = .fin (mathMaxWith [3, 0, 7] 1 - mathMinWith [3, 0, 7] 0) ∧
    ∃ pts, Sparkline (fun q => q) (some [3, 0, 7]) 60 20 = some pts ∧ pts.length = 3 ∧
      ∀ p ∈ pts, inBox 60 20 p := by
  have hB := overflowBound_gt_one
  have h60 : (60 : ℚ) < overflowBound := by unfold overflowBound; norm_num
  have h20 : (20 : ℚ) < overflowBound := by unfold overflowBound; norm_num
  have hfin : mathMaxWith [3, 0, 7] 1 - mathMinWith [3, 0, 7] 0 < overflowBound := by
    have hmx : mathMaxWith [3, 0, 7] 1 = 7 := by
      simp only [mathMaxWith, List.foldr]; norm_num
    have hmn : mathMinWith [3, 0, 7] 0 = 0 := by
      simp only [mathMinWith, List.foldr]; norm_num
    rw [hmx, hmn]
    unfold overflowBound; norm_num
  have h := sparkline_points_in_box (fun q => q) [3, 0, 7] 60 20 (by decide) (by norm_num)
    (by norm_num) (fun _ _ hab => hab) rfl rfl rfl rfl h60 h20 hfin
  obtain ⟨_, h2, _, _, ⟨pts, hp1, hp2, _, _, _, hp6⟩, _, _⟩ := h
  exact ⟨⟨by decide, by norm_num, by norm_num, fun _ _ hab => hab, h60, h20, hfin⟩, h2,
    pts, hp1, hp2, hp6⟩

/-! ## The prediction chart at concrete inputs (C23) -/

/-- C23, the code at the failing inputs.  A prediction with `x` and `pdf` and no `cdf`
passes the guard of line 12, and line 17 then spreads the missing `cdf`, which throws.
A prediction with a single `x` passes the guard and gives the divisor `x.length - 1 = 0`;
one whose `pdf` and `cdf` are all zero gives `maxPdf = 0` and `maxCdf = 0`; one whose
`pdf` is empty (an empty array is truthy) gives `maxPdf = -Infinity`. -/
theorem prediction_chart_unguarded :
    PredictionChart (some { x := some [0, 1], pdf := some [1, 3], cdf := none })
      = .error typeErrorSpread ∧
    PredictionChart (some { x := some [5], pdf := some [1], cdf := some [1] })
      = .ok (.chart { xDivisor := 0, maxPdf := some 1, maxCdf := some 1 }) ∧
    PredictionChart (some { x := some [0, 1], pdf := some [0, 0], cdf := some [0, 0] })
      = .ok (.chart { xDivisor := 1, maxPdf := some 0, maxCdf := some 0 }) ∧
    PredictionChart (some { x := some [0, 1], pdf := some [], cdf := some [0, 1] })
      = .ok (.chart { xDivisor := 1, maxPdf := none, maxCdf := some 1 }) := by
  refine ⟨rfl, ?_, ?_, ?_⟩
  · simp [PredictionChart, mathMax]
  · simp [PredictionChart, mathMax]
    norm_num
  · simp [PredictionChart, mathMax]
    norm_num

end UseTraffic
